import Mathlib

set_option maxHeartbeats 1000000
set_option maxRecDepth 4000

/-!
# Verification of the kimmio launcher's profile-lifecycle orchestrator

A shallow embedding, in Lean 4, of the launcher's job ledger, action
executors, engine driver retry loops, health reconciler, secret handling
and persistent profile store (package `internal/launcher` plus its
profile-store file), together with theorems settling the specification's
claims about them.

Modelling conventions:
* Go strings are Lean `String`s (sequences of Unicode scalar values); byte
  slices that hold text are `List Char`.
* Go maps are association lists; a `nil` slice or map is distinguished
  from an empty one with `Option` where the distinction is observable.
* Sources of nondeterminism (the `crypto/rand` byte stream, wall-clock
  timestamps, subprocess outcomes, health-probe outcomes) are explicit
  parameters: a byte stream is `Nat → Nat` (bytes taken mod 256), a
  timestamp is an opaque `String`, a subprocess or probe outcome is an
  oracle function.
* Functions that in Go return `error` return `Except String` /
  `Option String` carrying the error text.
-/

/-! ## Go string helpers (`strings` package operations used by the launcher) -/

/-- ASCII case folding of one character; `strings.ToLower` restricted to the
ASCII range, which covers every pattern the launcher matches against. -/
def asciiLower (c : Char) : Char :=
  if 65 ≤ c.toNat ∧ c.toNat ≤ 90 then Char.ofNat (c.toNat + 32) else c

/-- `strings.ToLower`. -/
def strToLower (s : String) : String :=
  String.mk (s.data.map asciiLower)

/-- `strings.Contains(s, sub)` on character lists. -/
def listContainsSub (s sub : List Char) : Bool :=
  s.tails.any (fun t => sub.isPrefixOf t)

/-- `strings.Contains(s, sub)`. -/
def strContains (s sub : String) : Bool :=
  listContainsSub s.data sub.data

/-- Whitespace characters recognised by `strings.TrimSpace` (the ASCII part
of `unicode.IsSpace`). -/
def isGoSpace (c : Char) : Bool :=
  c = ' ' || c = '\t' || c = '\n' || c = '\r' ||
    c = Char.ofNat 11 || c = Char.ofNat 12

/-- `strings.TrimSpace` on a character list. -/
def trimSpaceChars (s : List Char) : List Char :=
  ((s.dropWhile isGoSpace).reverse.dropWhile isGoSpace).reverse

/-- `strings.TrimSpace`. -/
def strTrimSpace (s : String) : String :=
  String.mk (trimSpaceChars s.data)

/-! ## Association-list maps (Go `map` values owned by the orchestrator) -/

/-- Go map read `m[k]` (comma-ok form): the binding for `k`, if any. -/
def mapLookup {α : Type} : List (String × α) → String → Option α
  | [], _ => none
  | (k, v) :: rest, key => if key = k then some v else mapLookup rest key

/-- Go map write `m[k] = v`: at most one binding per key is kept. -/
def mapInsert {α : Type} (m : List (String × α)) (k : String) (v : α) :
    List (String × α) :=
  (k, v) :: m.filter (fun kv => kv.1 != k)

/-- Go `delete(m, k)`. -/
def mapErase {α : Type} (m : List (String × α)) (k : String) :
    List (String × α) :=
  m.filter (fun kv => kv.1 != k)

/-! ## base64 (`encoding/base64` as used by `randomToken`,
`randomBase64Key32` and the repository's own secret-format test) -/

/-- The URL-safe base64 alphabet (`base64.RawURLEncoding`). -/
def b64urlAlphabet : List Char :=
  "ABCDEFGHIJKLMNOPQRSTUVWXYZabcdefghijklmnopqrstuvwxyz0123456789-_".data

/-- The standard base64 alphabet (`base64.StdEncoding`). -/
def b64stdAlphabet : List Char :=
  "ABCDEFGHIJKLMNOPQRSTUVWXYZabcdefghijklmnopqrstuvwxyz0123456789+/".data

/-- One alphabet symbol. -/
def b64Char (alphabet : List Char) (n : Nat) : Char :=
  alphabet.getD n 'A'

/-- Unpadded base64 of a byte list: 4 symbols per 3-byte group, 2 resp. 3
symbols for a trailing group of 1 resp. 2 bytes. -/
def b64EncodeGroups (alphabet : List Char) : List Nat → List Char
  | [] => []
  | [b1] =>
      [b64Char alphabet (b1 / 4), b64Char alphabet (b1 % 4 * 16)]
  | [b1, b2] =>
      [b64Char alphabet (b1 / 4), b64Char alphabet (b1 % 4 * 16 + b2 / 16),
        b64Char alphabet (b2 % 16 * 4)]
  | b1 :: b2 :: b3 :: rest =>
      b64Char alphabet (b1 / 4) ::
      b64Char alphabet (b1 % 4 * 16 + b2 / 16) ::
      b64Char alphabet (b2 % 16 * 4 + b3 / 64) ::
      b64Char alphabet (b3 % 64) ::
      b64EncodeGroups alphabet rest

/-- Index of a character in a base64 alphabet. -/
def b64CharIndex (alphabet : List Char) (c : Char) : Option Nat :=
  alphabet.indexOf? c

/-- `base64.StdEncoding.DecodeString` restricted to padding-free input whose
length is a multiple of four (the only shape arising here): 4 symbols become
3 bytes; any character outside the standard alphabet is an error. -/
def b64StdDecode : List Char → Option (List Nat)
  | [] => some []
  | c1 :: c2 :: c3 :: c4 :: rest => do
      let n1 ← b64CharIndex b64stdAlphabet c1
      let n2 ← b64CharIndex b64stdAlphabet c2
      let n3 ← b64CharIndex b64stdAlphabet c3
      let n4 ← b64CharIndex b64stdAlphabet c4
      let bs ← b64StdDecode rest
      some (
        (n1 * 4 + n2 / 16) :: (n2 % 16 * 16 + n3 / 4) :: (n3 % 64 * 64 % 256 + n4) :: bs)
  | _ => none

/-! ## Random tokens (`randomToken`, `main.go`) -/

/-- The hard-coded fallback returned when `crypto/rand` fails. -/
def randomFallbackSecret : String := "change-this-secret-please-1234567890"

/-- `randomToken(minLen)`.  `randOk` tells whether `rand.Read` succeeded and
`src` is the random byte stream it filled the buffer from. -/
def randomToken (randOk : Bool) (src : Nat → Nat) (minLen : Nat) : String :=
  let minLen := if minLen < 32 then 32 else minLen
  if !randOk then randomFallbackSecret
  else
    let buf := (List.range minLen).map (fun i => src i % 256)
    let token := String.mk (b64EncodeGroups b64urlAlphabet buf)
    if minLen ≤ token.data.length then String.mk (token.data.take minLen) else token

/-! ## The job ledger (`jobs.go`): `ActionJob`, the lock table, and the
background task's bookkeeping -/

/-- One in-memory action job record. -/
structure ActionJob where
  id : String
  profileID : String
  action : String
  step : String
  status : String
  message : String
  progress : Int
  error : String
  logs : List String
  startedAt : String
  finishedAt : String
deriving Repr, DecidableEq

/-- The ledger's shared state: the jobs map and the active-profile lock
table, both guarded by `jobMu`.  Each transition below is one critical
section of the Go code (one `jobMu.Lock()`/`Unlock()` pair), so a
transition is atomic by construction. -/
structure LedgerState where
  jobs : List (String × ActionJob)
  activeProfiles : List (String × String)
deriving Repr, DecidableEq

/-- Statuses the ledger treats as terminal (they set `FinishedAt`). -/
def isTerminalJobStatus (status : String) : Bool :=
  status == "succeeded" || status == "failed" || status == "timeout" ||
    status == "rolled_back"

/-- `updateJobStep(jobID, step, status, message, progress, errText)` with
`now` the formatted current time. -/
def updateJobStep (st : LedgerState) (jobID step status message : String)
    (progress : Int) (errText : String) (now : String) : LedgerState :=
  match mapLookup st.jobs jobID with
  | none => st
  | some job0 =>
      let job1 := if status == "running" && job0.startedAt == ""
        then { job0 with startedAt := now } else job0
      let job2 := if isTerminalJobStatus status
        then { job1 with finishedAt := now } else job1
      let job3 := { job2 with step := step, status := status,
                              message := message, progress := progress,
                              error := errText }
      let job4 := if message != "" then
          let logs := job3.logs ++ [now ++ " [" ++ step ++ "] " ++ message]
          { job3 with logs := if 100 < logs.length
                              then logs.drop (logs.length - 100) else logs }
        else job3
      { st with jobs := mapInsert st.jobs jobID job4 }

/-- `enqueueProfileJob(profileID, action, run)` up to (and including) the
release of `jobMu`: the busy check, job-record creation and lock-table
registration.  `randOk`/`src` feed `randomToken(16)` for the job id. -/
def enqueueProfileJob (st : LedgerState) (profileID action : String)
    (randOk : Bool) (src : Nat → Nat) :
    LedgerState × Except String ActionJob :=
  match mapLookup st.activeProfiles profileID with
  | some existingJobID =>
      (st, Except.error
        ("another action is already running for this profile (job " ++
          existingJobID ++ ")"))
  | none =>
      let jobID := randomToken randOk src 16
      let job : ActionJob :=
        { id := jobID, profileID := profileID, action := action, step := "",
          status := "queued", message := "Queued", progress := 0, error := "",
          logs := [], startedAt := "", finishedAt := "" }
      ({ jobs := mapInsert st.jobs jobID job,
         activeProfiles := mapInsert st.activeProfiles profileID jobID },
       Except.ok job)

/-- The background task's first action: transition the job to `running`
with message "Preparing action". -/
def prepareJobState (st : LedgerState) (jobID : String) (now : String) :
    LedgerState :=
  updateJobStep st jobID "prepare" "running" "Preparing action" 5 "" now

/-- Classification of `run`'s result by the background task: `none` (no
error) succeeds, an error whose lowered text contains a deadline/timeout
signature times out, anything else fails. -/
def classifyRunError : Option String → String
  | none => "succeeded"
  | some errText =>
      if strContains (strToLower errText) "deadline exceeded" ||
          strContains (strToLower errText) "timeout"
      then "timeout" else "failed"

/-- The background task's terminal bookkeeping after `run` returned
(`jobs.go` lines 76-85): one terminal `updateJobStep` chosen by the
classification. -/
def recordRunResult (st : LedgerState) (jobID : String)
    (runErr : Option String) (now : String) : LedgerState :=
  match runErr with
  | some errText =>
      if strContains (strToLower errText) "deadline exceeded" ||
          strContains (strToLower errText) "timeout"
      then updateJobStep st jobID "cleanup" "timeout" "Timed out" 100 errText now
      else updateJobStep st jobID "cleanup" "failed" "Failed" 100 errText now
  | none => updateJobStep st jobID "cleanup" "succeeded" "Completed" 100 "" now

/-- The end of the background task: record the terminal state, then remove
the lock-table entry (`delete(s.activeProfiles, profileID)`), which happens
unconditionally, whatever `run` returned. -/
def backgroundFinish (st : LedgerState) (jobID profileID : String)
    (runErr : Option String) (now : String) : LedgerState :=
  let st2 := recordRunResult st jobID runErr now
  { st2 with activeProfiles := mapErase st2.activeProfiles profileID }

/-! ## Decimal printing (`fmt.Sprintf("%d", …)` and the `encoding/json`
number syntax) -/

/-- Decimal digits of a natural number, most significant first. -/
def natToDigits (n : Nat) : List Char :=
  if h : n < 10 then [Char.ofNat (48 + n)]
  else natToDigits (n / 10) ++ [Char.ofNat (48 + n % 10)]
decreasing_by exact Nat.div_lt_self (by omega) (by omega)

/-- Decimal rendering of a Go `int`. -/
def intToChars (i : Int) : List Char :=
  if i < 0 then '-' :: natToDigits i.natAbs else natToDigits i.natAbs

/-- Decimal rendering of a Go `int` as a string. -/
def intToStr (i : Int) : String := String.mk (intToChars i)

/-! ## Profile data model (`ProfileRequest`, `ProfileStore`) -/

/-- A float64 as `encoding/json` represents it: the decimal
`mant / 10 ^ frac`.  Go prints a float64 as its shortest decimal form and
that form parses back to the same float64, so a decimal pair is a faithful
value-level model of the JSON-visible behaviour of the `CPUs` field. -/
structure GoDec where
  mant : Int
  frac : Nat
deriving Repr, DecidableEq

/-- `PortMapping`. -/
structure PortMapping where
  container : Int
  host : Int
deriving Repr, DecidableEq

/-- The `Limits` member of `Resources`. -/
structure ResourceLimits where
  memory : String
  cpus : GoDec
deriving Repr, DecidableEq

/-- `Resources`. -/
structure Resources where
  limits : ResourceLimits
deriving Repr, DecidableEq

/-- `ProfileRequest`, the stored profile record.  Go `nil` slices/maps are
`none`; `running` carries the `json:"-"` tag (never serialised);
`runtimeStatus`, `startingUntil`, the last-action strings and `actionLog`
carry `omitempty`. -/
structure ProfileRequest where
  id : String
  version : String
  ports : Option (List PortMapping)
  env : Option (List (String × String))
  resources : Resources
  enabled : Bool
  running : Bool
  runtimeStatus : String
  startingUntil : String
  lastAction : String
  lastActionStatus : String
  lastActionResult : String
  lastActionAt : String
  lastRequestedVersion : String
  actionLog : Option (List String)
deriving Repr, DecidableEq

/-- `ProfileStore`.  `none` is Go's `nil` profile slice. -/
structure ProfileStore where
  profiles : Option (List ProfileRequest)
deriving Repr, DecidableEq

/-- Index of the first list element satisfying `p` (the loop shape of
`findProfileIndex`). -/
def goFindIndex {α : Type} (p : α → Bool) : List α → Option Nat
  | [] => none
  | x :: xs => if p x then some 0 else (goFindIndex p xs).map (· + 1)

/-- `findProfileIndex`: index of the first profile with the given id,
`none` for Go's `-1`. -/
def findProfileIndex (store : ProfileStore) (id : String) : Option Nat :=
  goFindIndex (fun p => p.id == id) (store.profiles.getD [])

/-! ## Secret handling (`splitSecretEnv`, `saveProfileSecrets`,
`createProfile`) -/

/-- The keys `splitSecretEnv` routes to the secret store. -/
def isSecretEnvKey (k : String) : Bool :=
  k == "JWT_SECRET" || k == "ENC_KEY_V0" || k == "FLUMIO_ENC_KEY_V0"

/-- `splitSecretEnv`: split a request env into its public and secret
parts.  A `nil` map yields two empty (non-nil) maps. -/
def splitSecretEnv (env : Option (List (String × String))) :
    List (String × String) × List (String × String) :=
  let l := env.getD []
  (l.filter (fun kv => !isSecretEnvKey kv.1),
   l.filter (fun kv => isSecretEnvKey kv.1))

/-- The bytes `saveProfileSecrets` writes (`none` when the map is empty and
nothing is written): `key=trimmedValue` lines. -/
def saveProfileSecretsContent (secrets : List (String × String)) :
    Option String :=
  if secrets.isEmpty then none
  else some (String.intercalate "\n"
    (secrets.map (fun kv => kv.1 ++ "=" ++ strTrimSpace kv.2)) ++ "\n")

/-- The configuration fields `createProfile` consults. -/
structure LauncherConfig where
  listenPort : Int
  maxProfiles : Nat
deriving Repr, DecidableEq

/-- `createProfile`'s error cases. -/
inductive CreateProfileError where
  | profileExists
  | profileLimitReached
  | validation (msg : String)
deriving Repr, DecidableEq

/-- `validateCreateConstraints(req, store)`.  `portFree` is the
`net.Listen` probe outcome for a host port. -/
def validateCreateConstraints (cfg : LauncherConfig) (portFree : Int → Bool)
    (req : ProfileRequest) (store : ProfileStore) : Option String :=
  match req.ports.getD [] with
  | [] => some "host port is required"
  | pm :: _ =>
      let hostPort := pm.host
      if hostPort < 1024 then
        some "host port must be >= 1024 (reserved ports are blocked)"
      else if hostPort = cfg.listenPort then
        some ("host port " ++ intToStr hostPort ++ " is reserved")
      else
        match (store.profiles.getD []).find?
            (fun p => !(p.ports.getD []).isEmpty &&
              ((p.ports.getD []).headD ⟨0, 0⟩).host == hostPort) with
        | some p => some ("host port " ++ intToStr hostPort ++
            " is already used by profile " ++ p.id)
        | none =>
            if !portFree hostPort then
              some ("host port " ++ intToStr hostPort ++
                " is unavailable on this machine")
            else none

/-- `createProfile(req)` over the loaded store value.  On success it
returns the new store value (which `writeProfileStoreAtomic` persists) and
the secret map passed to `saveProfileSecrets`.  `srcJwt`/`srcEnc` are the
random bytes consumed by the two `randomToken` calls and `now` the
formatted creation time. -/
def createProfile (cfg : LauncherConfig) (portFree : Int → Bool)
    (randOk : Bool) (srcJwt srcEnc : Nat → Nat) (now : String)
    (store : ProfileStore) (req : ProfileRequest) :
    Except CreateProfileError (ProfileStore × List (String × String)) :=
  let profiles := store.profiles.getD []
  if profiles.any (fun p => p.id == req.id) then
    Except.error CreateProfileError.profileExists
  else if cfg.maxProfiles ≤ profiles.length then
    Except.error CreateProfileError.profileLimitReached
  else match validateCreateConstraints cfg portFree req store with
  | some msg => Except.error (CreateProfileError.validation msg)
  | none =>
      let split := splitSecretEnv req.env
      let publicEnv := split.1
      let secretEnv0 := split.2
      let secretEnv1 :=
        if strTrimSpace ((mapLookup secretEnv0 "JWT_SECRET").getD "") = ""
        then mapInsert secretEnv0 "JWT_SECRET" (randomToken randOk srcJwt 48)
        else secretEnv0
      let secretEnv2 :=
        if strTrimSpace
            ((mapLookup secretEnv1 "FLUMIO_ENC_KEY_V0").getD "") = ""
        then mapInsert secretEnv1 "FLUMIO_ENC_KEY_V0"
          (randomToken randOk srcEnc 32)
        else secretEnv1
      let newProfile := { req with
        env := some publicEnv,
        enabled := false,
        running := false,
        runtimeStatus := "stopped",
        startingUntil := "",
        lastAction := "create",
        lastActionStatus := "success",
        lastActionResult := "Profile created",
        lastActionAt := now,
        actionLog := some [now ++ " profile created"] }
      Except.ok (⟨some (profiles ++ [newProfile])⟩, secretEnv2)

/-- The request used by the creation scenario: `kimmio-default` on port
8080 with no secrets supplied. -/
def scenarioCreateReq : ProfileRequest :=
  { id := "kimmio-default", version := "latest",
    ports := some [⟨3000, 8080⟩],
    env := some [("APP_DOMAIN", "localhost")],
    resources := ⟨⟨"", ⟨0, 0⟩⟩⟩,
    enabled := false, running := false, runtimeStatus := "",
    startingUntil := "", lastAction := "", lastActionStatus := "",
    lastActionResult := "", lastActionAt := "", lastRequestedVersion := "",
    actionLog := none }

/-- The creation scenario evaluated: empty store, default config, the
all-zero random byte stream. -/
def c3CreateResult :
    Except CreateProfileError (ProfileStore × List (String × String)) :=
  createProfile ⟨7331, 3⟩ (fun _ => true) true (fun _ => 0) (fun _ => 0)
    "2026-01-01T00:00:00Z" ⟨some []⟩ scenarioCreateReq

/-- The secret map written by the creation scenario. -/
def c3Secrets : List (String × String) :=
  match c3CreateResult with
  | Except.ok (_, secrets) => secrets
  | Except.error _ => []

/-- The store contents persisted by the creation scenario. -/
def c3StoreProfiles : List ProfileRequest :=
  match c3CreateResult with
  | Except.ok (store', _) => store'.profiles.getD []
  | Except.error _ => []

/-! ## Store bookkeeping used by the executors (`markProfileResult`,
`restoreVersion`) and the version-update executor -/

/-- The zero value of `ProfileRequest`. -/
def emptyGoProfile : ProfileRequest :=
  { id := "", version := "", ports := none, env := none,
    resources := ⟨⟨"", ⟨0, 0⟩⟩⟩, enabled := false, running := false,
    runtimeStatus := "", startingUntil := "", lastAction := "",
    lastActionStatus := "", lastActionResult := "", lastActionAt := "",
    lastRequestedVersion := "", actionLog := none }

/-- `store.Profiles[idx]`. -/
def profileAt (store : ProfileStore) (idx : Nat) : ProfileRequest :=
  (store.profiles.getD []).getD idx emptyGoProfile

/-- Replace `store.Profiles[idx]`. -/
def storeSet (store : ProfileStore) (idx : Nat) (p : ProfileRequest) :
    ProfileStore :=
  ⟨some ((store.profiles.getD []).set idx p)⟩

/-- `markProfileResult(id, action, result, message, startingUntil)` over
the loaded store value (`os.ErrNotExist` text for a missing profile). -/
def markProfileResult (store : ProfileStore)
    (id action result message startingUntil now : String) :
    Except String ProfileStore :=
  match findProfileIndex store id with
  | none => Except.error "file does not exist"
  | some idx =>
      let p := profileAt store idx
      let p := { p with lastAction := action, lastActionStatus := result,
                        lastActionAt := now, lastActionResult := message }
      let p := if (action == "enable" || action == "recreate") &&
                  result != "failed"
               then { p with enabled := true,
                             startingUntil := startingUntil }
               else p
      let p := if action == "stop" && result != "failed"
               then { p with enabled := false, startingUntil := "" } else p
      let entry := now ++ " [" ++ action ++ "] " ++ result ++ ": " ++ message
      let log := entry :: (p.actionLog.getD [])
      let log := if 8 < log.length then log.take 8 else log
      Except.ok (storeSet store idx { p with actionLog := some log })

/-- `restoreVersion(id, version, rollbackOK)` over the loaded store
value: restores the given version unconditionally and records the failed
version action with the rollback outcome in the message. -/
def restoreVersion (store : ProfileStore) (id version : String)
    (rollbackOK : Bool) (now : String) : Except String ProfileStore :=
  match findProfileIndex store id with
  | none => Except.error "file does not exist"
  | some idx =>
      let p := profileAt store idx
      let p := { p with
        version := version,
        lastActionResult :=
          if rollbackOK then "Version update failed and rolled back"
          else "Version update failed; rollback also failed",
        lastAction := "version", lastActionStatus := "failed",
        lastActionAt := now }
      Except.ok (storeSet store idx p)

/-- `performVersionUpdate(id, newVersion)` over the loaded store value.
`upResult` is the outcome of `runProfileComposeUp` for a given profile
(`none` is success).  Returns the final store value, the sequence of
profiles the external rebuild was invoked with, and the executor's
result. -/
def performVersionUpdate (store : ProfileStore) (id newVersion : String)
    (upResult : ProfileRequest → Option String) (now : String) :
    ProfileStore × List ProfileRequest × Except String Unit :=
  match findProfileIndex store id with
  | none => (store, [], Except.error "file does not exist")
  | some idx =>
      let oldProfile := profileAt store idx
      let oldVersion := oldProfile.version
      let store1 := storeSet store idx
        { oldProfile with version := newVersion,
                          lastRequestedVersion := newVersion }
      if !oldProfile.enabled then
        match markProfileResult store1 id "version" "success"
            ("Version updated to " ++ newVersion) "" now with
        | Except.ok store2 => (store2, [], Except.ok ())
        | Except.error e => (store1, [], Except.error e)
      else
        let newProfile := { oldProfile with version := newVersion }
        match upResult newProfile with
        | none =>
            match markProfileResult store1 id "version" "success"
                ("Version updated to " ++ newVersion) "" now with
            | Except.ok store2 => (store2, [newProfile], Except.ok ())
            | Except.error e => (store1, [newProfile], Except.error e)
        | some err =>
            match upResult oldProfile with
            | none =>
                let store2 :=
                  (restoreVersion store1 id oldVersion true now).toOption.getD
                    store1
                (store2, [newProfile, oldProfile],
                  Except.error ("update failed and rolled back: " ++ err))
            | some rollbackErr =>
                let store2 :=
                  (restoreVersion store1 id oldVersion false
                    now).toOption.getD store1
                (store2, [newProfile, oldProfile],
                  Except.error ("update failed: " ++ err ++
                    "; rollback failed: " ++ rollbackErr))

/-- A one-profile store, enabled, at version 1.0.0: input of the C2
counterexample. -/
def c2Store : ProfileStore :=
  ⟨some [{ emptyGoProfile with id := "p", version := "1.0.0",
                               enabled := true }]⟩

/-! ## Engine driver (`friendlyDockerError`, the pull and compose-up retry
loops, `runProfileComposeDown`) and the delete executor -/

/-- `friendlyDockerError`: map a raw failure string onto a fixed user-facing
category by case-insensitive substring matching. -/
def friendlyDockerError (raw : String) : String :=
  let msg := strToLower (strTrimSpace raw)
  if strContains msg "cannot connect to the docker daemon" then
    "Docker daemon is not reachable. Start Docker Desktop (or Docker service) and try again."
  else if strContains msg "pull access denied" ||
      strContains msg "manifest unknown" || strContains msg "not found" then
    "Unable to pull Kimmio image tag. Verify the selected version exists and try again."
  else if strContains msg "port is already allocated" ||
      strContains msg "address already in use" then
    "Host port is already in use by another process. Choose another profile port."
  else if strContains msg "no space left on device" then
    "Not enough disk space for Docker image/containers. Free up space and retry."
  else if strContains msg "context deadline exceeded" ||
      strContains msg "timeout" then
    "Docker operation timed out while pulling or starting containers. Retry after checking network and Docker health."
  else
    "Docker failed to start this profile. Check Docker Desktop status and logs, then retry."

/-- The shared shape of the pull loop (`pullImageWithRetry`) and the
compose-up loop (`runProfileComposeUp`): run attempts `attempt`,
`attempt+1`, … while `remaining+…` attempts are left, stopping at the
first success, sleeping `attempt × 2` seconds after each failed attempt
that is not the last.  `res n` is attempt `n`'s outcome: `none` is
success, `some (errText, out)` the Go error and combined output, which the
loop folds into `lastErr = errText ++ ": " ++ trimmed out`.  Returns
(attempts made, sleep durations in seconds, last error or `none`). -/
def engineRetryAux (res : Nat → Option (String × String)) (attempt : Nat) :
    Nat → Nat × List Nat × Option String
  | 0 => (0, [], some "")
  | remaining + 1 =>
      match res attempt with
      | none => (1, [], none)
      | some (errText, out) =>
          let lastErr := errText ++ ": " ++ strTrimSpace out
          if remaining = 0 then (1, [], some lastErr)
          else
            let rest := engineRetryAux res (attempt + 1) remaining
            (rest.1 + 1, (attempt * 2) :: rest.2.1, rest.2.2)

/-- `pullImageWithRetry(…, attempts, …)`: at most `attempts` tries (at
least one), the normalized `friendlyDockerError` of the last failure when
every try failed. -/
def pullImageWithRetry (res : Nat → Option (String × String))
    (attempts : Nat) : Nat × List Nat × Except String Unit :=
  let attempts := if attempts < 1 then 1 else attempts
  let r := engineRetryAux res 1 attempts
  match r.2.2 with
  | none => (r.1, r.2.1, Except.ok ())
  | some lastErr => (r.1, r.2.1, Except.error (friendlyDockerError lastErr))

/-- The `up` retry loop inside `runProfileComposeUp`: fixed 3 attempts,
same backoff and error normalization as the pull loop. -/
def composeUpRetry (res : Nat → Option (String × String)) :
    Nat × List Nat × Except String Unit :=
  let r := engineRetryAux res 1 3
  match r.2.2 with
  | none => (r.1, r.2.1, Except.ok ())
  | some lastErr => (r.1, r.2.1, Except.error (friendlyDockerError lastErr))

/-- Outcome of `os.Stat` on a profile's `compose.yaml`. -/
inductive StatResult where
  | present
  | missing
  | statFailure (msg : String)
deriving Repr, DecidableEq

/-- `runProfileComposeDown(id, removeVolumes)`: skip silently when the
compose artifact is absent; otherwise one engine invocation whose failure
is wrapped as `err: output`.  Returns (engine invoked?, result). -/
def runProfileComposeDown (stat : StatResult)
    (downRes : Option (String × String)) : Bool × Except String Unit :=
  match stat with
  | StatResult.missing => (false, Except.ok ())
  | StatResult.statFailure msg => (false, Except.error msg)
  | StatResult.present =>
      match downRes with
      | none => (true, Except.ok ())
      | some (e, out) =>
          (true, Except.error (e ++ ": " ++ strTrimSpace out))

/-- `performDelete(id)` over the loaded store value: existence check,
external teardown (before any Store mutation), then removal of the record
and of the on-disk artifacts.  Returns (final store, engine invoked?,
compose dir removed?, secret file removed?, result). -/
def performDelete (store : ProfileStore) (id : String) (stat : StatResult)
    (downRes : Option (String × String)) :
    ProfileStore × Bool × Bool × Bool × Except String Unit :=
  match findProfileIndex store id with
  | none => (store, false, false, false, Except.error "file does not exist")
  | some _ =>
      let down := runProfileComposeDown stat downRes
      match down.2 with
      | Except.error e => (store, down.1, false, false, Except.error e)
      | Except.ok _ =>
          match findProfileIndex store id with
          | none =>
              (store, down.1, false, false,
                Except.error "file does not exist")
          | some idx =>
              (⟨some ((store.profiles.getD []).eraseIdx idx)⟩, down.1,
                true, true, Except.ok ())

/-! ## Health reconciliation (`applyHealthStatus`, `retryProfileHealth`) -/

/-- `retryProfileHealth(profile, attempts, sleep)`: succeed as soon as one
of the `attempts` successive probes succeeds.  `healthy n` is the outcome
of the n-th probe call (0-based). -/
def retryProfileHealth (healthy : Nat → Bool) (attempts : Nat) : Bool :=
  (List.range attempts).any healthy

/-- The per-profile body of `applyHealthStatus`'s loop:
reset to stopped/not-running, keep that for a disabled profile, probe with
a 2-attempt budget inside the starting window and a 4-attempt budget past
it. -/
def reconcileOne (withinWindow : String → Bool) (healthy : Nat → Bool)
    (profile : ProfileRequest) : ProfileRequest :=
  let p := { profile with running := false, runtimeStatus := "stopped" }
  if !p.enabled then p
  else if withinWindow p.startingUntil then
    if retryProfileHealth healthy 2 then
      { p with running := true, runtimeStatus := "running" }
    else { p with runtimeStatus := "starting" }
  else
    if retryProfileHealth healthy 4 then
      { p with running := true, runtimeStatus := "running" }
    else { p with runtimeStatus := "unhealthy" }

/-- The loop of `applyHealthStatus` over the copied slice, carrying the
element index so each profile gets its own probe sequence. -/
def applyHealthList (withinWindow : String → Bool)
    (healthy : Nat → Nat → Bool) :
    Nat → List ProfileRequest → List ProfileRequest
  | _, [] => []
  | i, profile :: rest =>
      reconcileOne withinWindow (healthy i) profile ::
        applyHealthList withinWindow healthy (i + 1) rest

/-- `applyHealthStatus(profiles)`: a pure function of the input list (the
Go code works on a copied slice), parameterized by the
`isWithinStartingWindow` outcome at the current instant and by the
per-profile probe outcomes. -/
def applyHealthStatus (withinWindow : String → Bool)
    (healthy : Nat → Nat → Bool) (profiles : List ProfileRequest) :
    List ProfileRequest :=
  applyHealthList withinWindow healthy 0 profiles

/-! ## JSON (`encoding/json` as used by `loadProfileStore` /
`writeProfileStoreAtomic`)

The store file holds `json.MarshalIndent(store, "", "  ")` bytes; loading
runs `json.Unmarshal`.  Both are embedded below: a JSON tree, the Go
encoder (struct-tag driven, `omitempty`, sorted-map and HTML-escaping
conventions), a whitespace-tolerant parser (fuelled by the input length;
each parsing step consumes input), and the decoder's assign-by-field-name
semantics.  Numbers are decimal `mant / 10^frac` pairs (`GoDec`):
float64's shortest-decimal JSON round-trip makes this a faithful value
model; exponent-form printing of extreme floats is not modelled. -/

/-- A parsed JSON value. -/
inductive Json where
  | null
  | bool (b : Bool)
  | num (m : Int) (e : Nat)
  | str (s : String)
  | arr (xs : List Json)
  | obj (fields : List (String × Json))

/-- Lower-case hex digit, as Go's encoder writes `\u00XX` escapes. -/
def hexDigitChar (n : Nat) : Char :=
  "0123456789abcdef".data.getD n '0'

/-- Value of one hex digit. -/
def parseHexDigit (c : Char) : Option Nat :=
  if 48 ≤ c.toNat ∧ c.toNat ≤ 57 then some (c.toNat - 48)
  else if 97 ≤ c.toNat ∧ c.toNat ≤ 102 then some (c.toNat - 87)
  else if 65 ≤ c.toNat ∧ c.toNat ≤ 70 then some (c.toNat - 55)
  else none

/-- Go's string escaping (`encodeState.string` with HTML escaping on):
quote, backslash, `\n`/`\r`/`\t`, `\u00XX` for other control characters,
`<`/`>`/`&` for `<`/`>`/`&`, ` `/` `, everything
else literal. -/
def jsonEscapeChar (c : Char) : List Char :=
  if c = '"' then ['\\', '"']
  else if c = '\\' then ['\\', '\\']
  else if c = '\n' then ['\\', 'n']
  else if c = '\r' then ['\\', 'r']
  else if c = '\t' then ['\\', 't']
  else if c.toNat < 32 then
    ['\\', 'u', '0', '0', hexDigitChar (c.toNat / 16),
      hexDigitChar (c.toNat % 16)]
  else if c = '<' then ['\\', 'u', '0', '0', '3', 'c']
  else if c = '>' then ['\\', 'u', '0', '0', '3', 'e']
  else if c = '&' then ['\\', 'u', '0', '0', '2', '6']
  else if c.toNat = 8232 then ['\\', 'u', '2', '0', '2', '8']
  else if c.toNat = 8233 then ['\\', 'u', '2', '0', '2', '9']
  else [c]

/-- Escape a whole string body. -/
def jsonEscape (s : List Char) : List Char :=
  (s.map jsonEscapeChar).flatten

/-- Left-pad with zero digits to width `n`. -/
def padZeros (l : List Char) (n : Nat) : List Char :=
  List.replicate (n - l.length) '0' ++ l

/-- Decimal rendering of `m / 10^e`, the plain-decimal form Go's encoder
emits for ints and (in-range) float64 values. -/
def decToChars (m : Int) (e : Nat) : List Char :=
  if e = 0 then intToChars m
  else
    (if m < 0 then ['-'] else []) ++
      natToDigits (m.natAbs / 10 ^ e) ++
      '.' :: padZeros (natToDigits (m.natAbs % 10 ^ e)) e

/-- Newline plus the two-space indentation of `MarshalIndent(v, "", "  ")`
at depth `d`. -/
def nlIndent (d : Nat) : List Char :=
  '\n' :: List.replicate (2 * d) ' '

mutual

/-- `json.MarshalIndent(…, "", "  ")` of a JSON value at depth `d`. -/
def printJson : Json → Nat → List Char
  | Json.null, _ => "null".data
  | Json.bool true, _ => "true".data
  | Json.bool false, _ => "false".data
  | Json.num m e, _ => decToChars m e
  | Json.str s, _ => '"' :: (jsonEscape s.data ++ ['"'])
  | Json.arr [], _ => "[]".data
  | Json.arr (x :: xs), d =>
      '[' :: (nlIndent (d + 1) ++ printJson x (d + 1) ++
        printJsonItems xs (d + 1) ++ nlIndent d ++ [']'])
  | Json.obj [], _ => "{}".data
  | Json.obj (f :: fs), d =>
      '{' :: (nlIndent (d + 1) ++ printJsonField f (d + 1) ++
        printJsonFields fs (d + 1) ++ nlIndent d ++ ['}'])

/-- Second and later array elements: `,` + newline + indent + element. -/
def printJsonItems : List Json → Nat → List Char
  | [], _ => []
  | x :: xs, d =>
      ',' :: (nlIndent d ++ printJson x d ++ printJsonItems xs d)

/-- One `"key": value` member. -/
def printJsonField : String × Json → Nat → List Char
  | (k, v), d =>
      '"' :: (jsonEscape k.data ++ '"' :: ':' :: ' ' :: printJson v d)

/-- Second and later object members. -/
def printJsonFields : List (String × Json) → Nat → List Char
  | [], _ => []
  | f :: fs, d =>
      ',' :: (nlIndent d ++ printJsonField f d ++ printJsonFields fs d)

end

/-- JSON whitespace. -/
def isJsonWs (c : Char) : Bool :=
  c = ' ' || c = '\t' || c = '\n' || c = '\r'

/-- Skip JSON whitespace. -/
def skipWs : List Char → List Char
  | [] => []
  | c :: rest => if isJsonWs c then skipWs rest else c :: rest

/-- ASCII digit. -/
def isDigitChar (c : Char) : Bool :=
  48 ≤ c.toNat && c.toNat ≤ 57

/-- Value of a decimal digit string. -/
def digitsToNat (l : List Char) : Nat :=
  l.foldl (fun acc c => acc * 10 + (c.toNat - 48)) 0

/-- Parse one JSON number (sign, integer part, optional fraction, optional
exponent), normalising to a `(mant, frac)` decimal pair. -/
def parseNumber (s : List Char) : Option ((Int × Nat) × List Char) :=
  let s1 := if s.head? = some '-' then s.tail else s
  let ip := s1.takeWhile isDigitChar
  let s2 := s1.dropWhile isDigitChar
  if ip.isEmpty then none
  else
    let fp := if s2.head? = some '.' then s2.tail.takeWhile isDigitChar
              else []
    let s3 := if s2.head? = some '.' then s2.tail.dropWhile isDigitChar
              else s2
    let m0 := digitsToNat (ip ++ fp)
    let e0 := fp.length
    let signedExp : Bool :=
      s3.tail.head? = some '-' || s3.tail.head? = some '+'
    let expDigits := if signedExp then s3.tail.tail.takeWhile isDigitChar
                     else s3.tail.takeWhile isDigitChar
    let expRest := if signedExp then s3.tail.tail.dropWhile isDigitChar
                   else s3.tail.dropWhile isDigitChar
    let k : Int :=
      if s3.head? = some 'e' ∨ s3.head? = some 'E' then
        if s3.tail.head? = some '-' then -(digitsToNat expDigits : Int)
        else (digitsToNat expDigits : Int)
      else 0
    let s4 := if s3.head? = some 'e' ∨ s3.head? = some 'E' then expRest
              else s3
    let me : Nat × Nat :=
      if 0 ≤ k then
        if e0 ≤ k.toNat then (m0 * 10 ^ (k.toNat - e0), 0)
        else (m0, e0 - k.toNat)
      else (m0, e0 + (-k).toNat)
    some ((if s.head? = some '-' then -(me.1 : Int) else (me.1 : Int),
      me.2), s4)

/-- The characters following a printed number must not extend it (inside
a `MarshalIndent` document a number is always followed by `,`, a newline
or a closing bracket, never by a digit, `.`, `e` or `E`). -/
def numTailOk (rest : List Char) : Prop :=
  ∀ c, rest.head? = some c →
    isDigitChar c = false ∧ c ≠ '.' ∧ c ≠ 'e' ∧ c ≠ 'E'

/-- Parse a string body up to the closing quote, handling escapes.  One
fuel unit is spent per produced character. -/
def parseStringBody : Nat → List Char → Option (List Char × List Char)
  | 0, _ => none
  | _ + 1, [] => none
  | fuel + 1, c :: rest =>
      if c = '"' then some ([], rest)
      else if c = '\\' then
        match rest with
        | [] => none
        | e :: rest2 =>
            if e = 'u' then
              match rest2 with
              | h1 :: h2 :: h3 :: h4 :: rest3 =>
                  match parseHexDigit h1, parseHexDigit h2,
                      parseHexDigit h3, parseHexDigit h4 with
                  | some n1, some n2, some n3, some n4 =>
                      (parseStringBody fuel rest3).map (fun pr =>
                        (Char.ofNat (((n1 * 16 + n2) * 16 + n3) * 16 + n4)
                          :: pr.1, pr.2))
                  | _, _, _, _ => none
              | _ => none
            else
              let ec : Option Char :=
                if e = '"' then some '"'
                else if e = '\\' then some '\\'
                else if e = '/' then some '/'
                else if e = 'b' then some (Char.ofNat 8)
                else if e = 'f' then some (Char.ofNat 12)
                else if e = 'n' then some '\n'
                else if e = 'r' then some '\r'
                else if e = 't' then some '\t'
                else none
              match ec with
              | none => none
              | some ec =>
                  (parseStringBody fuel rest2).map (fun pr =>
                    (ec :: pr.1, pr.2))
      else
        (parseStringBody fuel rest).map (fun pr => (c :: pr.1, pr.2))

mutual

/-- Parse one JSON value (leading whitespace allowed). -/
def parseJsonVal : Nat → List Char → Option (Json × List Char)
  | 0, _ => none
  | fuel + 1, s =>
      match skipWs s with
      | [] => none
      | c :: rest =>
          if c = '{' then
            let r := skipWs rest
            if r.head? = some '}' then some (Json.obj [], r.tail)
            else (parseObjRest fuel r).map (fun pr =>
              (Json.obj pr.1, pr.2))
          else if c = '[' then
            let r := skipWs rest
            if r.head? = some ']' then some (Json.arr [], r.tail)
            else (parseArrRest fuel r).map (fun pr =>
              (Json.arr pr.1, pr.2))
          else if c = '"' then
            (parseStringBody (fuel + 1) rest).map (fun pr =>
              (Json.str (String.mk pr.1), pr.2))
          else if c = 't' then
            match rest with
            | 'r' :: 'u' :: 'e' :: r => some (Json.bool true, r)
            | _ => none
          else if c = 'f' then
            match rest with
            | 'a' :: 'l' :: 's' :: 'e' :: r => some (Json.bool false, r)
            | _ => none
          else if c = 'n' then
            match rest with
            | 'u' :: 'l' :: 'l' :: r => some (Json.null, r)
            | _ => none
          else
            (parseNumber (c :: rest)).map (fun pr =>
              (Json.num pr.1.1 pr.1.2, pr.2))

/-- Parse the members of a non-empty array, positioned at the first
element. -/
def parseArrRest : Nat → List Char → Option (List Json × List Char)
  | 0, _ => none
  | fuel + 1, s =>
      match parseJsonVal fuel s with
      | none => none
      | some (x, r1) =>
          match skipWs r1 with
          | ',' :: r2 =>
              (parseArrRest fuel r2).map (fun pr => (x :: pr.1, pr.2))
          | ']' :: r2 => some ([x], r2)
          | _ => none

/-- Parse the members of a non-empty object, positioned at the first
key's opening quote. -/
def parseObjRest : Nat → List Char → Option (List (String × Json) × List Char)
  | 0, _ => none
  | fuel + 1, s =>
      match s with
      | '"' :: rest =>
          match parseStringBody (fuel + 1) rest with
          | none => none
          | some (key, r1) =>
              match skipWs r1 with
              | ':' :: r2 =>
                  match parseJsonVal fuel r2 with
                  | none => none
                  | some (v, r3) =>
                      match skipWs r3 with
                      | ',' :: r4 =>
                          (parseObjRest fuel (skipWs r4)).map (fun pr =>
                            ((String.mk key, v) :: pr.1, pr.2))
                      | '}' :: r4 => some ([(String.mk key, v)], r4)
                      | _ => none
              | _ => none
      | _ => none

end

/-- Parse a whole document: one value, then only whitespace
(`json.Unmarshal` rejects trailing data). -/
def parseJsonDoc (s : List Char) : Option Json :=
  match parseJsonVal (s.length + 1) s with
  | some (v, rest) => if (skipWs rest).isEmpty then some v else none
  | none => none

/-! ### Marshalling the store (struct tags of `ProfileRequest`) -/

/-- `PortMapping` as JSON. -/
def portToJson (pm : PortMapping) : Json :=
  Json.obj [("container", Json.num pm.container 0),
            ("host", Json.num pm.host 0)]

/-- `ProfileRequest` as JSON: fields in declaration order, `running`
dropped (`json:"-"`), empty `omitempty` fields dropped, `nil` slices and
maps as `null`.  A non-`nil` env map is emitted in the order of its
association list (Go sorts map keys; a store value in canonical form has
its env list sorted). -/
def profileToJson (p : ProfileRequest) : Json :=
  Json.obj (
    [("id", Json.str p.id), ("version", Json.str p.version),
     ("ports", match p.ports with
       | none => Json.null
       | some l => Json.arr (l.map portToJson)),
     ("env", match p.env with
       | none => Json.null
       | some kvs => Json.obj (kvs.map (fun kv => (kv.1, Json.str kv.2)))),
     ("resources", Json.obj [("limits", Json.obj
        [("memory", Json.str p.resources.limits.memory),
         ("cpus", Json.num p.resources.limits.cpus.mant
            p.resources.limits.cpus.frac)])]),
     ("enabled", Json.bool p.enabled)]
    ++ (if p.runtimeStatus = "" then []
        else [("runtimeStatus", Json.str p.runtimeStatus)])
    ++ (if p.startingUntil = "" then []
        else [("startingUntil", Json.str p.startingUntil)])
    ++ (if p.lastAction = "" then []
        else [("lastAction", Json.str p.lastAction)])
    ++ (if p.lastActionStatus = "" then []
        else [("lastActionStatus", Json.str p.lastActionStatus)])
    ++ (if p.lastActionResult = "" then []
        else [("lastActionResult", Json.str p.lastActionResult)])
    ++ (if p.lastActionAt = "" then []
        else [("lastActionAt", Json.str p.lastActionAt)])
    ++ (if p.lastRequestedVersion = "" then []
        else [("lastRequestedVersion", Json.str p.lastRequestedVersion)])
    ++ (match p.actionLog with
        | none => []
        | some [] => []
        | some l => [("actionLog", Json.arr (l.map Json.str))]))

/-- `ProfileStore` as JSON. -/
def storeToJson (store : ProfileStore) : Json :=
  Json.obj [("profiles", match store.profiles with
    | none => Json.null
    | some l => Json.arr (l.map profileToJson))]

/-- The bytes `writeProfileStoreAtomic` writes (and atomically renames
over the store path): `json.MarshalIndent(store, "", "  ")`. -/
def writeProfileStoreAtomicContent (store : ProfileStore) : List Char :=
  printJson (storeToJson store) 0

/-! ### Unmarshalling (`json.Unmarshal` into the tagged structs: iterate
the document's members in order, assign by field name, ignore unknown
keys, `null` leaves a field untouched, wrong types are errors) -/

/-- Decode a `[]string` element list. -/
def decodeStrList : List Json → Option (List String)
  | [] => some []
  | Json.str s :: rest => (decodeStrList rest).map (fun l => s :: l)
  | Json.null :: rest => (decodeStrList rest).map (fun l => "" :: l)
  | _ => none

/-- Decode a `map[string]string`'s members. -/
def decodeEnvList : List (String × Json) → Option (List (String × String))
  | [] => some []
  | (k, Json.str s) :: rest =>
      (decodeEnvList rest).map (fun l => (k, s) :: l)
  | (k, Json.null) :: rest =>
      (decodeEnvList rest).map (fun l => (k, "") :: l)
  | _ => none

/-- Assign one JSON member into a `PortMapping` (an int field rejects any
number with a fractional part, as `ParseInt` does). -/
def assignPortField (pm : PortMapping) (key : String) (v : Json) :
    Option PortMapping :=
  if key == "container" then
    match v with
    | Json.null => some pm
    | Json.num m 0 => some { pm with container := m }
    | _ => none
  else if key == "host" then
    match v with
    | Json.null => some pm
    | Json.num m 0 => some { pm with host := m }
    | _ => none
  else some pm

/-- Fold an object's members into a `PortMapping`. -/
def assignPortFields (pm : PortMapping) :
    List (String × Json) → Option PortMapping
  | [] => some pm
  | (k, v) :: rest =>
      match assignPortField pm k v with
      | none => none
      | some pm' => assignPortFields pm' rest

/-- Decode one `PortMapping`. -/
def portOfJson : Json → Option PortMapping
  | Json.null => some ⟨0, 0⟩
  | Json.obj fields => assignPortFields ⟨0, 0⟩ fields
  | _ => none

/-- Decode a `[]PortMapping` element list. -/
def decodePortList : List Json → Option (List PortMapping)
  | [] => some []
  | v :: rest =>
      match portOfJson v with
      | none => none
      | some pm => (decodePortList rest).map (fun l => pm :: l)

/-- Assign one JSON member into the `Limits` struct. -/
def assignLimitsField (rl : ResourceLimits) (key : String) (v : Json) :
    Option ResourceLimits :=
  if key == "memory" then
    match v with
    | Json.null => some rl
    | Json.str s => some { rl with memory := s }
    | _ => none
  else if key == "cpus" then
    match v with
    | Json.null => some rl
    | Json.num m e => some { rl with cpus := ⟨m, e⟩ }
    | _ => none
  else some rl

/-- Fold an object's members into the `Limits` struct. -/
def assignLimitsFields (rl : ResourceLimits) :
    List (String × Json) → Option ResourceLimits
  | [] => some rl
  | (k, v) :: rest =>
      match assignLimitsField rl k v with
      | none => none
      | some rl' => assignLimitsFields rl' rest

/-- Decode the `Limits` struct. -/
def limitsOfJson : Json → Option ResourceLimits
  | Json.null => some ⟨"", ⟨0, 0⟩⟩
  | Json.obj fields => assignLimitsFields ⟨"", ⟨0, 0⟩⟩ fields
  | _ => none

/-- Fold an object's members into the `Resources` struct. -/
def assignResourcesFields (r : Resources) :
    List (String × Json) → Option Resources
  | [] => some r
  | (k, v) :: rest =>
      if k == "limits" then
        match limitsOfJson v with
        | none => none
        | some rl => assignResourcesFields { r with limits := rl } rest
      else assignResourcesFields r rest

/-- Decode the `Resources` struct. -/
def resourcesOfJson : Json → Option Resources
  | Json.null => some ⟨⟨"", ⟨0, 0⟩⟩⟩
  | Json.obj fields =>
      (assignResourcesFields ⟨⟨"", ⟨0, 0⟩⟩⟩ fields)
  | _ => none

/-- Assign one JSON member into a `ProfileRequest` (`running` has tag
`json:"-"`, so no document key reaches it). -/
def assignProfileField (p : ProfileRequest) (key : String) (v : Json) :
    Option ProfileRequest :=
  if key == "id" then
    match v with
    | Json.null => some p
    | Json.str s => some { p with id := s }
    | _ => none
  else if key == "version" then
    match v with
    | Json.null => some p
    | Json.str s => some { p with version := s }
    | _ => none
  else if key == "ports" then
    match v with
    | Json.null => some p
    | Json.arr xs => (decodePortList xs).map (fun l =>
        { p with ports := some l })
    | _ => none
  else if key == "env" then
    match v with
    | Json.null => some p
    | Json.obj fields => (decodeEnvList fields).map (fun l =>
        { p with env := some l })
    | _ => none
  else if key == "resources" then
    match resourcesOfJson v with
    | none => none
    | some r => some { p with resources := r }
  else if key == "enabled" then
    match v with
    | Json.null => some p
    | Json.bool b => some { p with enabled := b }
    | _ => none
  else if key == "runtimeStatus" then
    match v with
    | Json.null => some p
    | Json.str s => some { p with runtimeStatus := s }
    | _ => none
  else if key == "startingUntil" then
    match v with
    | Json.null => some p
    | Json.str s => some { p with startingUntil := s }
    | _ => none
  else if key == "lastAction" then
    match v with
    | Json.null => some p
    | Json.str s => some { p with lastAction := s }
    | _ => none
  else if key == "lastActionStatus" then
    match v with
    | Json.null => some p
    | Json.str s => some { p with lastActionStatus := s }
    | _ => none
  else if key == "lastActionResult" then
    match v with
    | Json.null => some p
    | Json.str s => some { p with lastActionResult := s }
    | _ => none
  else if key == "lastActionAt" then
    match v with
    | Json.null => some p
    | Json.str s => some { p with lastActionAt := s }
    | _ => none
  else if key == "lastRequestedVersion" then
    match v with
    | Json.null => some p
    | Json.str s => some { p with lastRequestedVersion := s }
    | _ => none
  else if key == "actionLog" then
    match v with
    | Json.null => some p
    | Json.arr xs => (decodeStrList xs).map (fun l =>
        { p with actionLog := some l })
    | _ => none
  else some p

/-- Fold an object's members into a `ProfileRequest`. -/
def assignProfileFields (p : ProfileRequest) :
    List (String × Json) → Option ProfileRequest
  | [] => some p
  | (k, v) :: rest =>
      match assignProfileField p k v with
      | none => none
      | some p' => assignProfileFields p' rest

/-- Decode one `ProfileRequest`. -/
def profileOfJson : Json → Option ProfileRequest
  | Json.null => some emptyGoProfile
  | Json.obj fields => assignProfileFields emptyGoProfile fields
  | _ => none

/-- Decode a `[]ProfileRequest` element list. -/
def decodeProfileList : List Json → Option (List ProfileRequest)
  | [] => some []
  | v :: rest =>
      match profileOfJson v with
      | none => none
      | some p => (decodeProfileList rest).map (fun l => p :: l)

/-- Fold an object's members into a `ProfileStore`. -/
def assignStoreFields (st : ProfileStore) :
    List (String × Json) → Option ProfileStore
  | [] => some st
  | (k, v) :: rest =>
      if k == "profiles" then
        match v with
        | Json.null => assignStoreFields ⟨none⟩ rest
        | Json.arr xs =>
            match decodeProfileList xs with
            | none => none
            | some l => assignStoreFields ⟨some l⟩ rest
        | _ => none
      else assignStoreFields st rest

/-- Decode a `ProfileStore` (a top-level `null` leaves the zero struct). -/
def storeOfJson : Json → Option ProfileStore
  | Json.null => some ⟨none⟩
  | Json.obj fields => assignStoreFields ⟨none⟩ fields
  | _ => none

/-- `loadProfileStore(path)`.  `content` is the `os.ReadFile` outcome:
`none` when the file does not exist (first-run tolerance), otherwise the
bytes.  A whitespace-only file is an empty store; a file that fails to
parse or decode is a hard "profiles.json is corrupted" error (the suffix
after the colon stands for `encoding/json`'s own message); a missing or
`null` profile list is normalised to the empty list. -/
def loadProfileStore (content : Option (List Char)) :
    Except String ProfileStore :=
  match content with
  | none => Except.ok ⟨some []⟩
  | some b =>
      if trimSpaceChars b = [] then Except.ok ⟨some []⟩
      else
        match parseJsonDoc b with
        | none => Except.error
            ("profiles.json is corrupted: " ++ "invalid JSON document")
        | some v =>
            match storeOfJson v with
            | none => Except.error
                ("profiles.json is corrupted: " ++
                  "cannot unmarshal JSON value")
            | some store =>
                match store.profiles with
                | none => Except.ok ⟨some []⟩
                | some l => Except.ok ⟨some l⟩

/-- A store whose single profile was captured while running: `Running`
carries `json:"-"`, so this flag cannot survive a save/load cycle. -/
def c7BadProfile : ProfileRequest :=
  { emptyGoProfile with id := "p1", version := "1.2.0", running := true }

/-- The store holding `c7BadProfile`. -/
def c7BadStore : ProfileStore := ⟨some [c7BadProfile]⟩

/-- A representative persisted profile (the shape `createProfile` and the
executors write: `running` false, a non-empty action log). -/
def c7GoodProfile : ProfileRequest :=
  { emptyGoProfile with
      id := "p1", version := "1.2.0", enabled := true,
      ports := some [⟨8080, 18080⟩], env := some [("APP_DOMAIN", "x.io")],
      resources := ⟨⟨"2g", ⟨15, 1⟩⟩⟩, runtimeStatus := "running",
      lastAction := "create", lastActionStatus := "succeeded",
      lastActionResult := "Profile created", lastActionAt := "t1",
      actionLog := some ["created"] }

/-- The store holding `c7GoodProfile`. -/
def c7GoodStore : ProfileStore := ⟨some [c7GoodProfile]⟩

-- ===================================================================
-- ===========================  THEOREMS  ============================
-- ===================================================================

/-! ## Map lemmas -/

theorem mapLookup_insert_self {α : Type} (m : List (String × α)) (k : String)
    (v : α) : mapLookup (mapInsert m k v) k = some v := by
  simp [mapInsert, mapLookup]

theorem mapLookup_filter_ne {α : Type} (m : List (String × α)) (k : String) :
    mapLookup (m.filter (fun kv => kv.1 != k)) k = none := by
  induction m with
  | nil => simp [mapLookup]
  | cons kv rest ih =>
      by_cases h : kv.1 = k
      · simpa [List.filter, h] using ih
      · have hb : (kv.1 != k) = true := by simp [bne_iff_ne, h]
        simp only [List.filter, hb, mapLookup]
        rw [if_neg (by exact fun hk => h hk.symm)]
        exact ih

theorem mapLookup_erase_self {α : Type} (m : List (String × α)) (k : String) :
    mapLookup (mapErase m k) k = none :=
  mapLookup_filter_ne m k

/-! ## C1 and C5: job-ledger exclusivity and result classification -/

/-- C1: for every profile id P, if the active-profile lock table already
holds an entry for P then `enqueueProfileJob` returns the busy error and
leaves the ledger state unchanged (no job record, no background task); on
success the job record and the lock-table entry are created together in the
same critical section; and the background task's final transition removes
the lock-table entry for P whatever the run's outcome, so a subsequent
submission for P succeeds. -/
theorem enqueueProfileJob_exclusive
    (st : LedgerState) (P action action2 : String)
    (randOk randOk2 : Bool) (src src2 : Nat → Nat) :
    (∀ j, mapLookup st.activeProfiles P = some j →
      enqueueProfileJob st P action randOk src =
        (st, Except.error
          ("another action is already running for this profile (job " ++ j ++ ")"))) ∧
    (mapLookup st.activeProfiles P = none →
      ∃ st' job, enqueueProfileJob st P action randOk src = (st', Except.ok job) ∧
        mapLookup st'.jobs job.id = some job ∧
        mapLookup st'.activeProfiles P = some job.id) ∧
    (∀ stMid jobID runErr now,
      mapLookup (backgroundFinish stMid jobID P runErr now).activeProfiles P = none ∧
      ∃ st'' job'',
        enqueueProfileJob (backgroundFinish stMid jobID P runErr now) P action2
            randOk2 src2 = (st'', Except.ok job'')) := by
  refine ⟨?_, ?_, ?_⟩
  · intro j hj
    simp [enqueueProfileJob, hj]
  · intro hfree
    unfold enqueueProfileJob
    rw [hfree]
    exact ⟨_, _, rfl, mapLookup_insert_self _ _ _, mapLookup_insert_self _ _ _⟩
  · intro stMid jobID runErr now
    have hgone :
        mapLookup (backgroundFinish stMid jobID P runErr now).activeProfiles P
          = none := mapLookup_erase_self _ P
    refine ⟨hgone, ?_⟩
    unfold enqueueProfileJob
    rw [hgone]
    exact ⟨_, _, rfl⟩

theorem updateJobStep_lookup (st : LedgerState)
    (jobID step status message : String) (progress : Int)
    (errText now : String) (job : ActionJob)
    (hjob : mapLookup st.jobs jobID = some job) :
    ∃ job', mapLookup
        (updateJobStep st jobID step status message progress errText now).jobs
        jobID = some job' ∧
      job'.status = status ∧ job'.message = message ∧
      job'.progress = progress ∧ job'.error = errText ∧ job'.step = step ∧
      job'.finishedAt =
        (if isTerminalJobStatus status then now else job.finishedAt) := by
  unfold updateJobStep
  rw [hjob]
  refine ⟨_, mapLookup_insert_self _ _ _, ?_⟩
  by_cases h1 : (status == "running" && job.startedAt == "") = true <;>
    by_cases h2 : isTerminalJobStatus status = true <;>
    by_cases h3 : (message != "") = true <;>
    simp [h1, h2, h3]

/-- C5: the background task first moves the accepted job to status
"running" with message "Preparing action", then (after the work function
returns, whatever progress updates it made meanwhile) records exactly one
terminal state chosen by `classifyRunError`: no error is "succeeded", an
error whose lowercased text contains "deadline exceeded" or "timeout" is
"timeout", any other error is "failed"; in every case progress becomes 100
and the finish timestamp is recorded. -/
theorem backgroundTask_classification
    (st : LedgerState) (jobID : String) (job : ActionJob) (t1 : String)
    (hjob : mapLookup st.jobs jobID = some job) :
    (∃ job1, mapLookup (prepareJobState st jobID t1).jobs jobID = some job1 ∧
      job1.status = "running" ∧ job1.message = "Preparing action") ∧
    (∀ stMid jobMid runErr t2, mapLookup stMid.jobs jobID = some jobMid →
      ∃ job2, mapLookup (recordRunResult stMid jobID runErr t2).jobs jobID =
          some job2 ∧
        job2.status = classifyRunError runErr ∧
        job2.progress = 100 ∧ job2.finishedAt = t2 ∧
        (runErr = none → job2.status = "succeeded") ∧
        (∀ e, runErr = some e →
          ((strContains (strToLower e) "deadline exceeded" ||
              strContains (strToLower e) "timeout") = true →
            job2.status = "timeout") ∧
          ((strContains (strToLower e) "deadline exceeded" ||
              strContains (strToLower e) "timeout") = false →
            job2.status = "failed"))) := by
  constructor
  · obtain ⟨job1, hL, hs, hm, _⟩ :=
      updateJobStep_lookup st jobID "prepare" "running" "Preparing action" 5
        "" t1 job hjob
    exact ⟨job1, hL, hs, hm⟩
  · intro stMid jobMid runErr t2 hmid
    match runErr with
    | none =>
        obtain ⟨job2, hL, hs, _, hp, _, _, hf⟩ :=
          updateJobStep_lookup stMid jobID "cleanup" "succeeded" "Completed"
            100 "" t2 jobMid hmid
        refine ⟨job2, hL, ?_, hp, ?_, fun _ => hs,
          fun e he => Option.noConfusion he⟩
        · simpa [classifyRunError] using hs
        · simpa [isTerminalJobStatus] using hf
    | some e =>
        by_cases hto : (strContains (strToLower e) "deadline exceeded" ||
            strContains (strToLower e) "timeout") = true
        · obtain ⟨job2, hL, hs, _, hp, _, _, hf⟩ :=
            updateJobStep_lookup stMid jobID "cleanup" "timeout" "Timed out"
              100 e t2 jobMid hmid
          refine ⟨job2, ?_, ?_, hp, ?_, ?_, ?_⟩
          · simpa [recordRunResult, hto] using hL
          · simpa [classifyRunError, hto] using hs
          · simpa [isTerminalJobStatus] using hf
          · intro h
            exact Option.noConfusion h
          · intro e' he'
            injection he' with he''
            subst he''
            exact ⟨fun _ => hs, fun hfalse => absurd hfalse (by simp [hto])⟩
        · obtain ⟨job2, hL, hs, _, hp, _, _, hf⟩ :=
            updateJobStep_lookup stMid jobID "cleanup" "failed" "Failed"
              100 e t2 jobMid hmid
          have hto' := eq_false_of_ne_true hto
          refine ⟨job2, ?_, ?_, hp, ?_, ?_, ?_⟩
          · simpa [recordRunResult, hto'] using hL
          · simpa [classifyRunError, hto'] using hs
          · simpa [isTerminalJobStatus] using hf
          · intro h
            exact Option.noConfusion h
          · intro e' he'
            injection he' with he''
            subst he''
            exact ⟨fun htrue => absurd htrue (by simp [hto']), fun _ => hs⟩

/-- Witness for C5 at a concrete ledger: one queued job, run result an
error mentioning "timeout". -/
theorem backgroundTask_classification_witness :
    ∃ job2, mapLookup
        (recordRunResult
          ⟨[("j1", { id := "j1", profileID := "p", action := "enable",
                     step := "", status := "queued", message := "Queued",
                     progress := 0, error := "", logs := [], startedAt := "",
                     finishedAt := "" })], [("p", "j1")]⟩
          "j1" (some "operation timeout") "t2").jobs "j1" = some job2 ∧
      job2.status = classifyRunError (some "operation timeout") ∧
      job2.progress = 100 ∧ job2.finishedAt = "t2" := by
  obtain ⟨-, h2⟩ :=
    backgroundTask_classification
      ⟨[("j1", { id := "j1", profileID := "p", action := "enable",
                 step := "", status := "queued", message := "Queued",
                 progress := 0, error := "", logs := [], startedAt := "",
                 finishedAt := "" })], [("p", "j1")]⟩
      "j1"
      { id := "j1", profileID := "p", action := "enable", step := "",
        status := "queued", message := "Queued", progress := 0, error := "",
        logs := [], startedAt := "", finishedAt := "" }
      "t1" (by decide)
  obtain ⟨job2, hL, hs, hp, hf, -, -⟩ :=
    h2 ⟨[("j1", { id := "j1", profileID := "p", action := "enable",
                  step := "", status := "queued", message := "Queued",
                  progress := 0, error := "", logs := [], startedAt := "",
                  finishedAt := "" })], [("p", "j1")]⟩
      { id := "j1", profileID := "p", action := "enable", step := "",
        status := "queued", message := "Queued", progress := 0, error := "",
        logs := [], startedAt := "", finishedAt := "" }
      (some "operation timeout") "t2" (by decide)
  exact ⟨job2, hL, hs, hp, hf⟩

/-- Witness for C1 at concrete inputs: a held lock rejects a second
submission; a free lock accepts one. -/
theorem enqueueProfileJob_exclusive_witness :
    enqueueProfileJob ⟨[], [("p", "j1")]⟩ "p" "enable" true (fun _ => 0) =
      (⟨[], [("p", "j1")]⟩, Except.error
        ("another action is already running for this profile (job j1)")) ∧
    mapLookup
      (backgroundFinish ⟨[], [("p", "j1")]⟩ "j1" "p" (some "boom") "t2").activeProfiles
      "p" = none := by
  constructor
  · exact (enqueueProfileJob_exclusive ⟨[], [("p", "j1")]⟩ "p" "enable" "stop"
      true true (fun _ => 0) (fun _ => 0)).1 "j1" (by decide)
  · exact ((enqueueProfileJob_exclusive ⟨[], [("p", "j1")]⟩ "p" "enable" "stop"
      true true (fun _ => 0) (fun _ => 0)).2.2 ⟨[], [("p", "j1")]⟩ "j1"
      (some "boom") "t2").1

/-! ## C10 and C3: createProfile's initial state and generated secrets -/

theorem mapLookup_filter_prop (l : List (String × String))
    (p : String × String → Bool) (k v : String)
    (h : mapLookup (l.filter p) k = some v) : p (k, v) = true := by
  induction l with
  | nil => simp [mapLookup] at h
  | cons kv rest ih =>
      by_cases hp : p kv = true
      · rw [List.filter_cons_of_pos hp] at h
        unfold mapLookup at h
        by_cases hk : k = kv.1
        · rw [if_pos hk] at h
          injection h with hv
          subst hv
          subst hk
          simpa using hp
        · rw [if_neg hk] at h
          exact ih h
      · rw [List.filter_cons_of_neg hp] at h
        exact ih h

/-- C10: every profile record persisted by `createProfile` starts in the
safe initial state whatever the incoming request carried: disabled, not
running, runtime status "stopped", empty starting window, a successful
"create" last action, and a public env from which the secret keys
(`JWT_SECRET`, `ENC_KEY_V0`, `FLUMIO_ENC_KEY_V0`) have been removed. -/
theorem createProfile_initialState (cfg : LauncherConfig)
    (portFree : Int → Bool) (randOk : Bool) (srcJwt srcEnc : Nat → Nat)
    (now : String) (store : ProfileStore) (req : ProfileRequest)
    (store' : ProfileStore) (secrets : List (String × String))
    (hok : createProfile cfg portFree randOk srcJwt srcEnc now store req =
      Except.ok (store', secrets)) :
    ∃ p, store'.profiles = some ((store.profiles.getD []) ++ [p]) ∧
      p.enabled = false ∧ p.running = false ∧
      p.runtimeStatus = "stopped" ∧ p.startingUntil = "" ∧
      p.lastAction = "create" ∧ p.lastActionStatus = "success" ∧
      p.lastActionResult = "Profile created" ∧ p.lastActionAt = now ∧
      p.env = some ((req.env.getD []).filter (fun kv => !isSecretEnvKey kv.1)) ∧
      (∀ k v, mapLookup (p.env.getD []) k = some v →
        isSecretEnvKey k = false) := by
  simp only [createProfile] at hok
  split at hok
  · exact Except.noConfusion hok
  split at hok
  · exact Except.noConfusion hok
  split at hok
  · exact Except.noConfusion hok
  simp only [Except.ok.injEq, Prod.mk.injEq] at hok
  obtain ⟨h1, -⟩ := hok
  subst h1
  refine ⟨_, rfl, rfl, rfl, rfl, rfl, rfl, rfl, rfl, rfl, rfl, ?_⟩
  intro k v h
  simp only [Option.getD_some, splitSecretEnv] at h
  have := mapLookup_filter_prop _ _ _ _ h
  simpa using this

/-- Witness for C10 at the concrete creation scenario. -/
theorem createProfile_initialState_witness :
    ∃ p, ∃ store' : ProfileStore, ∃ secrets,
      createProfile ⟨7331, 3⟩ (fun _ => true) true (fun _ => 0) (fun _ => 0)
        "2026-01-01T00:00:00Z" ⟨some []⟩ scenarioCreateReq =
        Except.ok (store', secrets) ∧
      store'.profiles = some ([] ++ [p]) ∧
      p.enabled = false ∧ p.runtimeStatus = "stopped" := by
  have h := createProfile_initialState ⟨7331, 3⟩ (fun _ => true) true
    (fun _ => 0) (fun _ => 0) "2026-01-01T00:00:00Z" ⟨some []⟩
    scenarioCreateReq
  obtain ⟨p, h1, h2, -, h3, -⟩ := h _ _ rfl
  exact ⟨p, _, _, rfl, h1, h2, h3⟩

/-- C3 (code bug): creating `kimmio-default` on port 8080 with no secrets
supplied persists a secret-free store record and a `JWT_SECRET` of length
48 ≥ 32, but the generated encryption key `FLUMIO_ENC_KEY_V0` is a
32-character base64url token whose standard base64 decoding has 24 bytes,
not 32 — contradicting the claim and the repository's own test
`TestCreateProfileGeneratesSecretsWhenMissing` (which decodes the stored
key and requires exactly 32 raw bytes).  Evaluated at the all-zero random
byte stream; the token length (and hence the 24-byte decoding) is the same
for every stream. -/
theorem createProfile_encKey_decodesTo24 :
    c3CreateResult.isOk = true ∧
    (∀ p ∈ c3StoreProfiles, ∀ kv ∈ p.env.getD [],
      isSecretEnvKey kv.1 = false) ∧
    ((mapLookup c3Secrets "JWT_SECRET").getD "").length = 48 ∧
    ((mapLookup c3Secrets "FLUMIO_ENC_KEY_V0").getD "").length = 32 ∧
    (b64StdDecode
        ((mapLookup c3Secrets "FLUMIO_ENC_KEY_V0").getD "").data).map
      List.length = some 24 := by
  decide

/-! ## C2: version-update rollback -/

theorem getD_set_self {α : Type} (l : List α) (i : Nat) (a d : α)
    (h : i < l.length) : (l.set i a).getD i d = a := by
  induction l generalizing i with
  | nil => simp at h
  | cons x xs ih =>
      cases i with
      | zero => simp
      | succ n => simpa using ih n (by simpa using h)

theorem goFindIndex_lt_length {α : Type} (p : α → Bool) (l : List α)
    (i : Nat) (h : goFindIndex p l = some i) : i < l.length := by
  induction l generalizing i with
  | nil => simp [goFindIndex] at h
  | cons x xs ih =>
      unfold goFindIndex at h
      by_cases hp : p x = true
      · rw [if_pos hp] at h
        injection h with h
        subst h
        simp
      · rw [if_neg hp] at h
        cases hr : goFindIndex p xs with
        | none => rw [hr] at h; simp at h
        | some j =>
            rw [hr] at h
            injection h with h
            subst h
            simpa using Nat.succ_lt_succ (ih j hr)

theorem goFindIndex_getD {α : Type} (p : α → Bool) (l : List α) (i : Nat)
    (d : α) (h : goFindIndex p l = some i) : p (l.getD i d) = true := by
  induction l generalizing i with
  | nil => simp [goFindIndex] at h
  | cons x xs ih =>
      unfold goFindIndex at h
      by_cases hp : p x = true
      · rw [if_pos hp] at h
        injection h with h
        subst h
        simpa using hp
      · rw [if_neg hp] at h
        cases hr : goFindIndex p xs with
        | none => rw [hr] at h; simp at h
        | some j =>
            rw [hr] at h
            injection h with h
            subst h
            simpa using ih j hr

theorem goFindIndex_set {α : Type} (p : α → Bool) (l : List α) (i : Nat)
    (a : α) (h : goFindIndex p l = some i) (ha : p a = true) :
    goFindIndex p (l.set i a) = some i := by
  induction l generalizing i with
  | nil => simp [goFindIndex] at h
  | cons x xs ih =>
      unfold goFindIndex at h
      by_cases hp : p x = true
      · rw [if_pos hp] at h
        injection h with h
        subst h
        simp [goFindIndex, ha]
      · rw [if_neg hp] at h
        cases hr : goFindIndex p xs with
        | none => rw [hr] at h; simp at h
        | some j =>
            rw [hr] at h
            injection h with h
            subst h
            simp only [List.set_cons_succ]
            unfold goFindIndex
            rw [if_neg hp, ih j hr]
            rfl

theorem profileAt_storeSet (store : ProfileStore) (idx : Nat)
    (p : ProfileRequest) (h : idx < (store.profiles.getD []).length) :
    profileAt (storeSet store idx p) idx = p := by
  unfold profileAt storeSet
  simp only [Option.getD_some]
  exact getD_set_self _ _ _ _ h

theorem findProfileIndex_storeSet (store : ProfileStore) (id : String)
    (idx : Nat) (p : ProfileRequest)
    (hfind : findProfileIndex store id = some idx)
    (hid : (p.id == id) = true) :
    findProfileIndex (storeSet store idx p) id = some idx := by
  unfold findProfileIndex at hfind ⊢
  simp only [storeSet, Option.getD_some]
  exact goFindIndex_set _ _ _ _ hfind hid


/-- C2 (amended): for an enabled profile stored at version A, a version
update to B whose rebuild fails attempts exactly one rollback rebuild,
with version A.  If the rollback rebuild succeeds, the Store's version
field equals A, the last-action status is "failed" with message "Version
update failed and rolled back", and the executor returns an error
containing "update failed and rolled back".  If the rollback rebuild also
fails, the Store's version field still equals A — `restoreVersion`
restores the previous version unconditionally — while the message records
"rollback also failed" and the returned error combines both failures. -/
theorem performVersionUpdate_rollback (store : ProfileStore)
    (id newVersion now errNew : String)
    (upResult : ProfileRequest → Option String) (idx : Nat)
    (hfind : findProfileIndex store id = some idx)
    (henabled : (profileAt store idx).enabled = true)
    (hup : upResult { profileAt store idx with version := newVersion } =
      some errNew) :
    (performVersionUpdate store id newVersion upResult now).2.1 =
      [{ profileAt store idx with version := newVersion },
        profileAt store idx] ∧
    (profileAt (performVersionUpdate store id newVersion upResult now).1
        idx).version = (profileAt store idx).version ∧
    (profileAt (performVersionUpdate store id newVersion upResult now).1
        idx).lastActionStatus = "failed" ∧
    (upResult (profileAt store idx) = none →
      (profileAt (performVersionUpdate store id newVersion upResult now).1
          idx).lastActionResult = "Version update failed and rolled back" ∧
      (performVersionUpdate store id newVersion upResult now).2.2 =
        Except.error ("update failed and rolled back: " ++ errNew)) ∧
    (∀ errOld, upResult (profileAt store idx) = some errOld →
      (profileAt (performVersionUpdate store id newVersion upResult now).1
          idx).lastActionResult =
        "Version update failed; rollback also failed" ∧
      (performVersionUpdate store id newVersion upResult now).2.2 =
        Except.error ("update failed: " ++ errNew ++ "; rollback failed: "
          ++ errOld)) := by
  have hfindG : goFindIndex (fun p => p.id == id)
      (store.profiles.getD []) = some idx := hfind
  have hlen : idx < (store.profiles.getD []).length :=
    goFindIndex_lt_length _ _ _ hfindG
  have hid : ((profileAt store idx).id == id) = true := by
    simpa [profileAt] using goFindIndex_getD (fun p => p.id == id)
      (store.profiles.getD []) idx emptyGoProfile hfindG
  have hq : findProfileIndex (storeSet store idx { profileAt store idx with version := newVersion, lastRequestedVersion := newVersion }) id = some idx :=
    findProfileIndex_storeSet store id idx _ hfind (by simpa using hid)
  have hlen1 : idx < ((storeSet store idx { profileAt store idx with version := newVersion, lastRequestedVersion := newVersion }).profiles.getD []).length := by
    simpa [storeSet] using hlen
  have hrv : ∀ b : Bool,
      restoreVersion (storeSet store idx { profileAt store idx with version := newVersion, lastRequestedVersion := newVersion }) id (profileAt store idx).version b now =
      Except.ok (storeSet (storeSet store idx { profileAt store idx with version := newVersion, lastRequestedVersion := newVersion }) idx { profileAt store idx with version := (profileAt store idx).version, lastRequestedVersion := newVersion, lastActionResult := if b then "Version update failed and rolled back" else "Version update failed; rollback also failed", lastAction := "version", lastActionStatus := "failed", lastActionAt := now }) := by
    intro b
    unfold restoreVersion
    simp only [hq]
    rw [profileAt_storeSet _ _ _ hlen]
  cases hro : upResult (profileAt store idx) with
  | none =>
      have hcomp : performVersionUpdate store id newVersion upResult now =
        (storeSet (storeSet store idx { profileAt store idx with version := newVersion, lastRequestedVersion := newVersion }) idx { profileAt store idx with version := (profileAt store idx).version, lastRequestedVersion := newVersion, lastActionResult := "Version update failed and rolled back", lastAction := "version", lastActionStatus := "failed", lastActionAt := now },
         [{ profileAt store idx with version := newVersion },
           profileAt store idx],
         Except.error ("update failed and rolled back: " ++ errNew)) := by
        unfold performVersionUpdate
        simp only [hfind]
        rw [if_neg (by simp [henabled])]
        simp only [hup]
        simp only [hro]
        simp only [hrv true, Except.toOption, Option.getD_some, if_true]
      rw [hcomp]
      refine ⟨rfl, ?_, ?_, fun _ => ⟨?_, rfl⟩,
        fun errOld h => Option.noConfusion h⟩
      · rw [profileAt_storeSet _ _ _ hlen1]
      · rw [profileAt_storeSet _ _ _ hlen1]
      · rw [profileAt_storeSet _ _ _ hlen1]
  | some errOld =>
      have hcomp : performVersionUpdate store id newVersion upResult now =
        (storeSet (storeSet store idx { profileAt store idx with version := newVersion, lastRequestedVersion := newVersion }) idx { profileAt store idx with version := (profileAt store idx).version, lastRequestedVersion := newVersion, lastActionResult := "Version update failed; rollback also failed", lastAction := "version", lastActionStatus := "failed", lastActionAt := now },
         [{ profileAt store idx with version := newVersion },
           profileAt store idx],
         Except.error ("update failed: " ++ errNew ++ "; rollback failed: "
           ++ errOld)) := by
        unfold performVersionUpdate
        simp only [hfind]
        rw [if_neg (by simp [henabled])]
        simp only [hup]
        simp only [hro]
        simp only [hrv false, Except.toOption, Option.getD_some,
          Bool.false_eq_true, if_false]
      rw [hcomp]
      refine ⟨rfl, ?_, ?_, fun h => Option.noConfusion h,
        fun errOld2 h => ⟨?_, ?_⟩⟩
      · rw [profileAt_storeSet _ _ _ hlen1]
      · rw [profileAt_storeSet _ _ _ hlen1]
      · rw [profileAt_storeSet _ _ _ hlen1]
      · injection h with h
        subst h
        rfl

/-- C2 counterexample: with both the rebuild and the rollback rebuild
forced to fail, the version-update executor leaves the Store's version
field at the old version "1.0.0" (`restoreVersion` restores it
unconditionally) — not at the attempted-but-failed target "2.0.0" that the
claim asserts. -/
theorem performVersionUpdate_rollbackFailed_versionNotTarget :
    (performVersionUpdate c2Store "p" "2.0.0" (fun _ => some "boom")
        "t").2.2 =
      Except.error "update failed: boom; rollback failed: boom" ∧
    (profileAt (performVersionUpdate c2Store "p" "2.0.0"
        (fun _ => some "boom") "t").1 0).version = "1.0.0" ∧
    (profileAt (performVersionUpdate c2Store "p" "2.0.0"
        (fun _ => some "boom") "t").1 0).version ≠ "2.0.0" :=
  ⟨rfl, rfl, by decide⟩

/-- Witness for the amended C2 theorem at a concrete store and failing
engine. -/
theorem performVersionUpdate_rollback_witness :
    (performVersionUpdate c2Store "p" "2.0.0" (fun _ => some "boom")
        "t").2.1 =
      [{ profileAt c2Store 0 with version := "2.0.0" },
        profileAt c2Store 0] ∧
    (profileAt (performVersionUpdate c2Store "p" "2.0.0"
        (fun _ => some "boom") "t").1 0).version =
      (profileAt c2Store 0).version := by
  obtain ⟨h1, h2, -, -, -⟩ :=
    performVersionUpdate_rollback c2Store "p" "2.0.0" "t" "boom"
      (fun _ => some "boom") 0 (by decide) (by decide) rfl
  exact ⟨h1, h2⟩

/-! ## C9: engine retry policy -/

/-- C9: the image-pull and compose-up loops each run at most 3 attempts,
stop at the first success, sleep `attempt × 2` seconds after each failed
attempt except the last (2s after attempt 1, 4s after attempt 2, none
after attempt 3), and when every attempt fails return the
`friendlyDockerError` normalization of the last failure.  The compose-up
loop is the same loop with the attempt budget fixed at 3. -/
theorem engine_retry_policy (res : Nat → Option (String × String)) :
    composeUpRetry res = pullImageWithRetry res 3 ∧
    (pullImageWithRetry res 3).1 ≤ 3 ∧
    (res 1 = none → pullImageWithRetry res 3 = (1, [], Except.ok ())) ∧
    (∀ e1 o1, res 1 = some (e1, o1) → res 2 = none →
      pullImageWithRetry res 3 = (2, [2], Except.ok ())) ∧
    (∀ e1 o1 e2 o2, res 1 = some (e1, o1) → res 2 = some (e2, o2) →
      res 3 = none →
      pullImageWithRetry res 3 = (3, [2, 4], Except.ok ())) ∧
    (∀ e1 o1 e2 o2 e3 o3, res 1 = some (e1, o1) → res 2 = some (e2, o2) →
      res 3 = some (e3, o3) →
      pullImageWithRetry res 3 =
        (3, [2, 4], Except.error
          (friendlyDockerError (e3 ++ ": " ++ strTrimSpace o3)))) := by
  refine ⟨rfl, ?_, ?_, ?_, ?_, ?_⟩
  · cases h1 : res 1 with
    | none => simp [pullImageWithRetry, engineRetryAux, h1]
    | some p1 =>
        cases h2 : res 2 with
        | none =>
            cases p1
            simp [pullImageWithRetry, engineRetryAux, h1, h2]
        | some p2 =>
            cases h3 : res 3 with
            | none =>
                cases p1; cases p2
                simp [pullImageWithRetry, engineRetryAux, h1, h2, h3]
            | some p3 =>
                cases p1; cases p2; cases p3
                simp [pullImageWithRetry, engineRetryAux, h1, h2, h3]
  · intro h1
    simp [pullImageWithRetry, engineRetryAux, h1]
  · intro e1 o1 h1 h2
    simp [pullImageWithRetry, engineRetryAux, h1, h2]
  · intro e1 o1 e2 o2 h1 h2 h3
    simp [pullImageWithRetry, engineRetryAux, h1, h2, h3]
  · intro e1 o1 e2 o2 e3 o3 h1 h2 h3
    simp [pullImageWithRetry, engineRetryAux, h1, h2, h3]

/-- Witness for C9: success on the second attempt, and full failure. -/
theorem engine_retry_policy_witness :
    pullImageWithRetry
      (fun n => if n = 1 then some ("err1", " out1 ") else none) 3 =
      (2, [2], Except.ok ()) ∧
    pullImageWithRetry (fun _ => some ("no such image", "boom")) 3 =
      (3, [2, 4], Except.error
        (friendlyDockerError ("no such image" ++ ": " ++
          strTrimSpace "boom"))) := by
  constructor
  · exact (engine_retry_policy
      (fun n => if n = 1 then some ("err1", " out1 ") else none)).2.2.2.1
      "err1" " out1 " (by decide) (by decide)
  · exact (engine_retry_policy
      (fun _ => some ("no such image", "boom"))).2.2.2.2.2
      "no such image" "boom" "no such image" "boom" "no such image" "boom"
      rfl rfl rfl

/-! ## C8: delete ordering and teardown skipping -/

/-- C8: `performDelete` runs the external teardown before any Store
mutation: when teardown fails the executor returns that error and the
profile record is still present in the Store; when the profile has no
compose artifact on disk the teardown step is skipped (no engine
invocation) without error, and the record and the on-disk artifacts are
removed. -/
theorem performDelete_ordering (store : ProfileStore) (id : String)
    (idx : Nat) (hfind : findProfileIndex store id = some idx) :
    (∀ e out, performDelete store id StatResult.present (some (e, out)) =
        (store, true, false, false,
          Except.error (e ++ ": " ++ strTrimSpace out)) ∧
      findProfileIndex
        (performDelete store id StatResult.present (some (e, out))).1 id =
        some idx) ∧
    (∀ downRes, performDelete store id StatResult.missing downRes =
      (⟨some ((store.profiles.getD []).eraseIdx idx)⟩, false, true, true,
        Except.ok ())) := by
  constructor
  · intro e out
    constructor
    · unfold performDelete
      simp only [hfind]
      rfl
    · have h : (performDelete store id StatResult.present
          (some (e, out))).1 = store := by
        unfold performDelete
        simp only [hfind]
        rfl
      rw [h, hfind]
  · intro downRes
    unfold performDelete
    simp only [hfind]
    rfl

/-- Witness for C8 at a one-profile store. -/
theorem performDelete_ordering_witness :
    performDelete c2Store "p" StatResult.present (some ("down failed", "")) =
      (c2Store, true, false, false,
        Except.error ("down failed" ++ ": " ++ strTrimSpace "")) ∧
    performDelete c2Store "p" StatResult.missing none =
      (⟨some []⟩, false, true, true, Except.ok ()) := by
  constructor
  · exact ((performDelete_ordering c2Store "p" 0 (by decide)).1
      "down failed" "").1
  · have h := (performDelete_ordering c2Store "p" 0 (by decide)).2 none
    simpa using h

/-! ## C4: health reconciliation -/

theorem applyHealthList_length (ww : String → Bool)
    (healthy : Nat → Nat → Bool) (i0 : Nat) (l : List ProfileRequest) :
    (applyHealthList ww healthy i0 l).length = l.length := by
  induction l generalizing i0 with
  | nil => rfl
  | cons p rest ih => simp [applyHealthList, ih]

theorem applyHealthList_getD (ww : String → Bool)
    (healthy : Nat → Nat → Bool) (i0 : Nat) (l : List ProfileRequest)
    (i : Nat) (hi : i < l.length) :
    (applyHealthList ww healthy i0 l).getD i emptyGoProfile =
      reconcileOne ww (healthy (i0 + i)) (l.getD i emptyGoProfile) := by
  induction l generalizing i0 i with
  | nil => simp at hi
  | cons p rest ih =>
      cases i with
      | zero => simp [applyHealthList]
      | succ n =>
          have hn : n < rest.length := by simpa using hi
          have := ih (i0 + 1) n hn
          simpa [applyHealthList, Nat.add_assoc, Nat.add_comm 1 n]
            using this

/-- C4: health reconciliation returns a new list of the same length in
which every profile keeps all its fields — in particular `enabled` —
except `running` and `runtimeStatus`; a disabled profile is always
stopped/not-running regardless of probe outcomes; an enabled profile
inside its starting window is "running" when a probe in the 2-attempt
budget succeeds and otherwise "starting", never "unhealthy"; an enabled
profile past the window is "running" when a probe in the 4-attempt budget
succeeds and otherwise "unhealthy".  (The function is pure: the input list
itself is untouched.) -/
theorem applyHealthStatus_reconcile (ww : String → Bool)
    (healthy : Nat → Nat → Bool) (profiles : List ProfileRequest) (i : Nat)
    (hi : i < profiles.length) :
    (applyHealthStatus ww healthy profiles).length = profiles.length ∧
    (applyHealthStatus ww healthy profiles).getD i emptyGoProfile =
      reconcileOne ww (healthy i) (profiles.getD i emptyGoProfile) ∧
    (∀ h : Nat → Bool, ∀ p : ProfileRequest,
      ((reconcileOne ww h p).enabled = p.enabled ∧
        (reconcileOne ww h p).id = p.id ∧
        (reconcileOne ww h p).version = p.version ∧
        (reconcileOne ww h p).ports = p.ports ∧
        (reconcileOne ww h p).env = p.env ∧
        (reconcileOne ww h p).resources = p.resources ∧
        (reconcileOne ww h p).startingUntil = p.startingUntil ∧
        (reconcileOne ww h p).lastAction = p.lastAction ∧
        (reconcileOne ww h p).lastActionStatus = p.lastActionStatus ∧
        (reconcileOne ww h p).lastActionResult = p.lastActionResult ∧
        (reconcileOne ww h p).lastActionAt = p.lastActionAt ∧
        (reconcileOne ww h p).lastRequestedVersion =
          p.lastRequestedVersion ∧
        (reconcileOne ww h p).actionLog = p.actionLog) ∧
      (p.enabled = false →
        (reconcileOne ww h p).runtimeStatus = "stopped" ∧
        (reconcileOne ww h p).running = false) ∧
      (p.enabled = true → ww p.startingUntil = true →
        (retryProfileHealth h 2 = true →
          (reconcileOne ww h p).runtimeStatus = "running" ∧
          (reconcileOne ww h p).running = true) ∧
        (retryProfileHealth h 2 = false →
          (reconcileOne ww h p).runtimeStatus = "starting" ∧
          (reconcileOne ww h p).running = false) ∧
        (reconcileOne ww h p).runtimeStatus ≠ "unhealthy") ∧
      (p.enabled = true → ww p.startingUntil = false →
        (retryProfileHealth h 4 = true →
          (reconcileOne ww h p).runtimeStatus = "running" ∧
          (reconcileOne ww h p).running = true) ∧
        (retryProfileHealth h 4 = false →
          (reconcileOne ww h p).runtimeStatus = "unhealthy" ∧
          (reconcileOne ww h p).running = false))) := by
  refine ⟨applyHealthList_length ww healthy 0 profiles, ?_, ?_⟩
  · simpa using applyHealthList_getD ww healthy 0 profiles i hi
  · intro h p
    by_cases he : p.enabled = true
    · by_cases hw : ww p.startingUntil = true
      · by_cases hr : retryProfileHealth h 2 = true
        · refine ⟨?_, ?_, ?_, ?_⟩ <;>
            simp [reconcileOne, he, hw, hr]
        · have hr' := eq_false_of_ne_true hr
          refine ⟨?_, ?_, ?_, ?_⟩ <;>
            simp [reconcileOne, he, hw, hr']
      · have hw' := eq_false_of_ne_true hw
        by_cases hr : retryProfileHealth h 4 = true
        · refine ⟨?_, ?_, ?_, ?_⟩ <;>
            simp [reconcileOne, he, hw', hr]
        · have hr' := eq_false_of_ne_true hr
          refine ⟨?_, ?_, ?_, ?_⟩ <;>
            simp [reconcileOne, he, hw', hr']
    · have he' := eq_false_of_ne_true he
      refine ⟨?_, ?_, ?_, ?_⟩ <;>
        simp [reconcileOne, he']

/-- Witness for C4: one disabled and one enabled-in-window profile with
failing probes. -/
theorem applyHealthStatus_reconcile_witness :
    (applyHealthStatus (fun _ => true) (fun _ _ => false)
      [{ emptyGoProfile with id := "a", enabled := false },
       { emptyGoProfile with id := "b", enabled := true }]).length = 2 ∧
    (applyHealthStatus (fun _ => true) (fun _ _ => false)
        [{ emptyGoProfile with id := "a", enabled := false },
         { emptyGoProfile with id := "b", enabled := true }]).getD 0
        emptyGoProfile =
      reconcileOne (fun _ => true) (fun _ => false)
        { emptyGoProfile with id := "a", enabled := false } := by
  have h := applyHealthStatus_reconcile (fun _ => true) (fun _ _ => false)
    [{ emptyGoProfile with id := "a", enabled := false },
     { emptyGoProfile with id := "b", enabled := true }] 0 (by decide)
  exact ⟨h.1, h.2.1⟩

/-! ## C6 and C7: the JSON layer.  Whitespace and string-escape lemmas. -/

theorem skipWs_cons_not (c : Char) (s : List Char)
    (h : isJsonWs c = false) : skipWs (c :: s) = c :: s := by
  simp [skipWs, h]

theorem skipWs_append_ws (pre s : List Char)
    (h : ∀ c ∈ pre, isJsonWs c = true) :
    skipWs (pre ++ s) = skipWs s := by
  induction pre with
  | nil => rfl
  | cons c cs ih =>
      have hc : isJsonWs c = true := h c (by simp)
      simp only [List.cons_append, skipWs, hc, if_true]
      exact ih (fun x hx => h x (by simp [hx]))

theorem nlIndent_ws (d : Nat) : ∀ c ∈ nlIndent d, isJsonWs c = true := by
  intro c hc
  simp only [nlIndent, List.mem_cons, List.mem_replicate] at hc
  rcases hc with h | ⟨-, h⟩ <;> subst h <;> rfl

theorem skipWs_nlIndent (d : Nat) (s : List Char) :
    skipWs (nlIndent d ++ s) = skipWs s :=
  skipWs_append_ws _ _ (nlIndent_ws d)

theorem parseJsonVal_ws (fuel : Nat) (pre s : List Char)
    (h : ∀ c ∈ pre, isJsonWs c = true) :
    parseJsonVal fuel (pre ++ s) = parseJsonVal fuel s := by
  cases fuel with
  | zero => rfl
  | succ f =>
      simp only [parseJsonVal]
      rw [skipWs_append_ws pre s h]

theorem parseHexDigit_hexDigitChar :
    ∀ n, n < 16 → parseHexDigit (hexDigitChar n) = some n := by decide

theorem jsonEscape_cons (c : Char) (cs : List Char) :
    jsonEscape (c :: cs) = jsonEscapeChar c ++ jsonEscape cs := by
  simp [jsonEscape]

theorem parseStringBody_hexEscape (f : Nat) (hc1 hc2 : Char)
    (t : List Char) (n3 n4 : Nat) (hx1 : parseHexDigit hc1 = some n3)
    (hx2 : parseHexDigit hc2 = some n4) :
    parseStringBody (f + 1) ('\\' :: 'u' :: '0' :: '0' :: hc1 :: hc2 :: t) =
      (parseStringBody f t).map (fun pr =>
        (Char.ofNat (((0 * 16 + 0) * 16 + n3) * 16 + n4) :: pr.1,
          pr.2)) := by
  have h0 : parseHexDigit '0' = some 0 := rfl
  simp [parseStringBody, h0, hx1, hx2]

theorem parseStringBody_escape (rest : List Char) (cs : List Char)
    (fuel : Nat) (hf : cs.length < fuel) :
    parseStringBody fuel (jsonEscape cs ++ '"' :: rest) =
      some (cs, rest) := by
  induction cs generalizing fuel with
  | nil =>
      cases fuel with
      | zero => omega
      | succ f => rfl
  | cons c cs ih =>
      cases fuel with
      | zero => omega
      | succ f =>
          have hf' : cs.length < f := by
            simpa using Nat.lt_of_succ_lt_succ hf
          rw [jsonEscape_cons]
          by_cases h1 : c = '"'
          · subst h1
            have hred : parseStringBody (f + 1)
                (jsonEscapeChar '"' ++ (jsonEscape cs ++ '"' :: rest)) =
                (parseStringBody f (jsonEscape cs ++ '"' :: rest)).map
                  (fun pr => ('"' :: pr.1, pr.2)) := rfl
            rw [List.append_assoc, hred, ih f hf']
            rfl
          · by_cases h2 : c = '\\'
            · subst h2
              have hred : parseStringBody (f + 1)
                  (jsonEscapeChar '\\' ++ (jsonEscape cs ++ '"' :: rest)) =
                  (parseStringBody f (jsonEscape cs ++ '"' :: rest)).map
                    (fun pr => ('\\' :: pr.1, pr.2)) := rfl
              rw [List.append_assoc, hred, ih f hf']
              rfl
            · by_cases h3 : c = '\n'
              · subst h3
                have hred : parseStringBody (f + 1)
                    (jsonEscapeChar '\n' ++ (jsonEscape cs ++ '"' :: rest)) =
                    (parseStringBody f (jsonEscape cs ++ '"' :: rest)).map
                      (fun pr => ('\n' :: pr.1, pr.2)) := rfl
                rw [List.append_assoc, hred, ih f hf']
                rfl
              · by_cases h4 : c = '\r'
                · subst h4
                  have hred : parseStringBody (f + 1)
                      (jsonEscapeChar '\r' ++
                        (jsonEscape cs ++ '"' :: rest)) =
                      (parseStringBody f (jsonEscape cs ++ '"' :: rest)).map
                        (fun pr => ('\r' :: pr.1, pr.2)) := rfl
                  rw [List.append_assoc, hred, ih f hf']
                  rfl
                · by_cases h5 : c = '\t'
                  · subst h5
                    have hred : parseStringBody (f + 1)
                        (jsonEscapeChar '\t' ++
                          (jsonEscape cs ++ '"' :: rest)) =
                        (parseStringBody f
                          (jsonEscape cs ++ '"' :: rest)).map
                          (fun pr => ('\t' :: pr.1, pr.2)) := rfl
                    rw [List.append_assoc, hred, ih f hf']
                    rfl
                  · by_cases h6 : c.toNat < 32
                    · have hesc : jsonEscapeChar c =
                          ['\\', 'u', '0', '0', hexDigitChar (c.toNat / 16),
                            hexDigitChar (c.toNat % 16)] := by
                        simp [jsonEscapeChar, h1, h2, h3, h4, h5, h6]
                      have hx1 : parseHexDigit
                          (hexDigitChar (c.toNat / 16)) =
                          some (c.toNat / 16) :=
                        parseHexDigit_hexDigitChar _ (by omega)
                      have hx2 : parseHexDigit
                          (hexDigitChar (c.toNat % 16)) =
                          some (c.toNat % 16) :=
                        parseHexDigit_hexDigitChar _ (by omega)
                      rw [List.append_assoc, hesc]
                      simp only [List.cons_append, List.nil_append]
                      rw [parseStringBody_hexEscape _ _ _ _ _ _ hx1 hx2,
                        ih f hf']
                      have harith : ((0 * 16 + 0) * 16 + c.toNat / 16) * 16
                          + c.toNat % 16 = c.toNat := by omega
                      simp only [harith, Char.ofNat_toNat]
                      rfl
                    · by_cases h7 : c = '<'
                      · subst h7
                        have hred : parseStringBody (f + 1)
                            (jsonEscapeChar '<' ++
                              (jsonEscape cs ++ '"' :: rest)) =
                            (parseStringBody f
                              (jsonEscape cs ++ '"' :: rest)).map
                              (fun pr => ('<' :: pr.1, pr.2)) := rfl
                        rw [List.append_assoc, hred, ih f hf']
                        rfl
                      · by_cases h8 : c = '>'
                        · subst h8
                          have hred : parseStringBody (f + 1)
                              (jsonEscapeChar '>' ++
                                (jsonEscape cs ++ '"' :: rest)) =
                              (parseStringBody f
                                (jsonEscape cs ++ '"' :: rest)).map
                                (fun pr => ('>' :: pr.1, pr.2)) := rfl
                          rw [List.append_assoc, hred, ih f hf']
                          rfl
                        · by_cases h9 : c = '&'
                          · subst h9
                            have hred : parseStringBody (f + 1)
                                (jsonEscapeChar '&' ++
                                  (jsonEscape cs ++ '"' :: rest)) =
                                (parseStringBody f
                                  (jsonEscape cs ++ '"' :: rest)).map
                                  (fun pr => ('&' :: pr.1, pr.2)) := rfl
                            rw [List.append_assoc, hred, ih f hf']
                            rfl
                          · by_cases h10 : c.toNat = 8232
                            · have hred : parseStringBody (f + 1)
                                  ('\\' :: 'u' :: '2' :: '0' :: '2' :: '8' ::
                                    (jsonEscape cs ++ '"' :: rest)) =
                                  (parseStringBody f
                                    (jsonEscape cs ++ '"' :: rest)).map
                                    (fun pr =>
                                      (Char.ofNat 8232 :: pr.1, pr.2)) := rfl
                              have hesc : jsonEscapeChar c =
                                  ['\\', 'u', '2', '0', '2', '8'] := by
                                simp [jsonEscapeChar, h1, h2, h3, h4, h5,
                                  h6, h7, h8, h9, h10]
                              have hc : Char.ofNat 8232 = c := by
                                rw [← h10, Char.ofNat_toNat]
                              rw [List.append_assoc, hesc]
                              simp only [List.cons_append, List.nil_append]
                              rw [hred, ih f hf', hc]
                              rfl
                            · by_cases h11 : c.toNat = 8233
                              · have hred : parseStringBody (f + 1)
                                    ('\\' :: 'u' :: '2' :: '0' :: '2' ::
                                      '9' ::
                                      (jsonEscape cs ++ '"' :: rest)) =
                                    (parseStringBody f
                                      (jsonEscape cs ++ '"' :: rest)).map
                                      (fun pr =>
                                        (Char.ofNat 8233 :: pr.1,
                                          pr.2)) := rfl
                                have hesc : jsonEscapeChar c =
                                    ['\\', 'u', '2', '0', '2', '9'] := by
                                  simp [jsonEscapeChar, h1, h2, h3, h4, h5,
                                    h6, h7, h8, h9, h10, h11]
                                have hc : Char.ofNat 8233 = c := by
                                  rw [← h11, Char.ofNat_toNat]
                                rw [List.append_assoc, hesc]
                                simp only [List.cons_append,
                                  List.nil_append]
                                rw [hred, ih f hf', hc]
                                rfl
                              · have hesc : jsonEscapeChar c = [c] := by
                                  simp [jsonEscapeChar, h1, h2, h3, h4, h5,
                                    h6, h7, h8, h9, h10, h11]
                                rw [List.append_assoc, hesc,
                                  List.singleton_append]
                                simp only [parseStringBody]
                                rw [if_neg h1, if_neg h2, ih f hf']
                                rfl

theorem digit_facts : ∀ n, n < 10 →
    isDigitChar (Char.ofNat (48 + n)) = true ∧
    (Char.ofNat (48 + n)).toNat = 48 + n := by decide

theorem natToDigits_ne_nil (n : Nat) : natToDigits n ≠ [] := by
  rw [natToDigits]
  split <;> simp

theorem natToDigits_digits (n : Nat) :
    ∀ c ∈ natToDigits n, isDigitChar c = true := by
  induction n using Nat.strong_induction_on with
  | _ n ih =>
      rw [natToDigits]
      split
      · next h =>
          intro c hc
          simp only [List.mem_singleton] at hc
          subst hc
          exact (digit_facts n h).1
      · next h =>
          intro c hc
          simp only [List.mem_append, List.mem_singleton] at hc
          rcases hc with hc | hc
          · exact ih (n / 10) (Nat.div_lt_self (by omega) (by omega)) c hc
          · subst hc
            exact (digit_facts (n % 10) (Nat.mod_lt _ (by omega))).1

theorem digitsToNat_from (b : List Char) (acc : Nat) :
    b.foldl (fun a c => a * 10 + (c.toNat - 48)) acc =
      acc * 10 ^ b.length + digitsToNat b := by
  induction b generalizing acc with
  | nil => simp [digitsToNat]
  | cons c cs ih =>
      simp only [List.foldl_cons, List.length_cons, digitsToNat]
      rw [ih, ih (0 * 10 + (c.toNat - 48))]
      ring

theorem digitsToNat_append (a b : List Char) :
    digitsToNat (a ++ b) =
      digitsToNat a * 10 ^ b.length + digitsToNat b := by
  simp only [digitsToNat, List.foldl_append]
  exact digitsToNat_from b _

theorem digitsToNat_natToDigits (n : Nat) :
    digitsToNat (natToDigits n) = n := by
  induction n using Nat.strong_induction_on with
  | _ n ih =>
      rw [natToDigits]
      split
      · next h =>
          have := (digit_facts n h).2
          simp [digitsToNat, this]
      · next h =>
          rw [digitsToNat_append,
            ih (n / 10) (Nat.div_lt_self (by omega) (by omega))]
          have := (digit_facts (n % 10) (Nat.mod_lt _ (by omega))).2
          simp [digitsToNat, this]
          omega

theorem takeWhile_append_all (p : Char → Bool) (l rest : List Char)
    (hl : ∀ c ∈ l, p c = true)
    (hr : ∀ c, rest.head? = some c → p c = false) :
    (l ++ rest).takeWhile p = l ∧ (l ++ rest).dropWhile p = rest := by
  induction l with
  | nil =>
      simp only [List.nil_append]
      cases rest with
      | nil => simp
      | cons c t =>
          have hc := hr c rfl
          simp [List.takeWhile_cons, List.dropWhile_cons, hc]
  | cons c cs ih =>
      have pc := hl c (by simp)
      have := ih (fun x hx => hl x (by simp [hx]))
      simp [List.takeWhile_cons, List.dropWhile_cons, pc, this.1, this.2]

theorem padZeros_length (l : List Char) (n : Nat) (h : l.length ≤ n) :
    (padZeros l n).length = n := by
  simp [padZeros]
  omega

theorem padZeros_digits (l : List Char) (n : Nat)
    (hl : ∀ c ∈ l, isDigitChar c = true) :
    ∀ c ∈ padZeros l n, isDigitChar c = true := by
  intro c hc
  simp only [padZeros, List.mem_append, List.mem_replicate] at hc
  rcases hc with ⟨-, hc⟩ | hc
  · subst hc
    decide
  · exact hl c hc

theorem digitsToNat_cons_zero (l : List Char) :
    digitsToNat ('0' :: l) = digitsToNat l := rfl

theorem digitsToNat_padZeros (l : List Char) (n : Nat) :
    digitsToNat (padZeros l n) = digitsToNat l := by
  simp only [padZeros]
  induction (n - l.length) with
  | zero => simp
  | succ k ih =>
      rw [List.replicate_succ, List.cons_append, digitsToNat_cons_zero]
      exact ih

theorem natToDigits_length_le (x e : Nat) (hx : x < 10 ^ e)
    (he : 1 ≤ e) : (natToDigits x).length ≤ e := by
  induction x using Nat.strong_induction_on generalizing e with
  | _ x ih =>
      rw [natToDigits]
      split
      · next h => simpa using he
      · next h =>
          have he2 : 2 ≤ e := by
            by_contra hc
            have : e = 1 := by omega
            subst this
            simp at hx
            omega
          have hdiv : x / 10 < 10 ^ (e - 1) := by
            rw [Nat.div_lt_iff_lt_mul (by omega)]
            calc x < 10 ^ e := hx
            _ = 10 ^ (e - 1) * 10 := by
                rw [← Nat.pow_succ]
                congr 1
                omega
          have := ih (x / 10) (Nat.div_lt_self (by omega) (by omega))
            (e - 1) hdiv (by omega)
          simp only [List.length_append, List.length_singleton]
          omega

theorem digit_ne_minus {d : Char} (hd : isDigitChar d = true) :
    ¬ d = '-' := by
  intro h
  subst h
  exact absurd hd (by decide)

theorem parseNumber_noFrac (D rest : List Char) (hne : D ≠ [])
    (hdig : ∀ c ∈ D, isDigitChar c = true) (hrest : numTailOk rest) :
    parseNumber (D ++ rest) =
      some (((digitsToNat D : Int), 0), rest) := by
  obtain ⟨d, t, hD⟩ : ∃ d t, D = d :: t := by
    cases D with
    | nil => exact absurd rfl hne
    | cons d t => exact ⟨d, t, rfl⟩
  have hd : isDigitChar d = true := hdig d (by rw [hD]; simp)
  have hc1 : ((D ++ rest).head? = some '-') = False := by
    rw [hD]
    simp only [List.cons_append, List.head?_cons, Option.some.injEq]
    exact eq_false (digit_ne_minus hd)
  obtain ⟨htw, hdw⟩ := takeWhile_append_all isDigitChar D rest hdig
    (fun c hc => (hrest c hc).1)
  have hip : (D ++ rest).takeWhile isDigitChar = D := htw
  have hipe : ((D ++ rest).takeWhile isDigitChar).isEmpty = false := by
    rw [hip, hD]
    rfl
  have hc2 : (rest.head? = some '.') = False :=
    eq_false (fun h => absurd rfl (hrest '.' h).2.1)
  have hc3 : (rest.head? = some 'e' ∨ rest.head? = some 'E') = False := by
    refine eq_false ?_
    rintro (h | h)
    · exact absurd rfl (hrest 'e' h).2.2.1
    · exact absurd rfl (hrest 'E' h).2.2.2
  simp only [parseNumber, hc1, if_false, hip, hdw, hipe,
    Bool.false_eq_true, hc2, hc3]
  simp [digitsToNat_append, digitsToNat]
  exact hne

theorem parseNumber_frac (D F rest : List Char) (hneD : D ≠ [])
    (hneF : F ≠ [])
    (hdigD : ∀ c ∈ D, isDigitChar c = true)
    (hdigF : ∀ c ∈ F, isDigitChar c = true) (hrest : numTailOk rest) :
    parseNumber (D ++ '.' :: (F ++ rest)) =
      some (((digitsToNat (D ++ F) : Int), F.length), rest) := by
  obtain ⟨d, t, hD⟩ : ∃ d t, D = d :: t := by
    cases D with
    | nil => exact absurd rfl hneD
    | cons d t => exact ⟨d, t, rfl⟩
  have hd : isDigitChar d = true := hdigD d (by rw [hD]; simp)
  have hc1 : ((D ++ '.' :: (F ++ rest)).head? = some '-') = False := by
    rw [hD]
    simp only [List.cons_append, List.head?_cons, Option.some.injEq]
    exact eq_false (digit_ne_minus hd)
  obtain ⟨htw, hdw⟩ := takeWhile_append_all isDigitChar D
    ('.' :: (F ++ rest)) hdigD (fun c hc => by
      simp only [List.head?_cons, Option.some.injEq] at hc
      subst hc
      rfl)
  have hipe : ((D ++ '.' :: (F ++ rest)).takeWhile isDigitChar).isEmpty
      = false := by
    rw [htw, hD]
    rfl
  obtain ⟨htwF, hdwF⟩ := takeWhile_append_all isDigitChar F rest hdigF
    (fun c hc => (hrest c hc).1)
  have hc2 : (('.' :: (F ++ rest)).head? = some '.') = True := by simp
  have hc3 : (rest.head? = some 'e' ∨ rest.head? = some 'E') = False := by
    refine eq_false ?_
    rintro (h | h)
    · exact absurd rfl (hrest 'e' h).2.2.1
    · exact absurd rfl (hrest 'E' h).2.2.2
  have hFlen0 : (F.length = 0) = False := by
    refine eq_false ?_
    intro h
    exact hneF (List.eq_nil_of_length_eq_zero h)
  simp only [parseNumber, hc1, if_false, htw, hdw, hipe,
    Bool.false_eq_true, hc2, if_true, List.tail_cons, htwF, hdwF, hc3]
  simp [hFlen0]
  exact hneD

theorem parseNumber_neg (w : List Char) (hw : ¬ w.head? = some '-') :
    parseNumber ('-' :: w) =
      (parseNumber w).map (fun pr => ((-pr.1.1, pr.1.2), pr.2)) := by
  have hcL : (('-' :: w).head? = some '-') = True := by simp
  have hcR : (w.head? = some '-') = False := eq_false hw
  simp only [parseNumber, hcL, hcR, if_true, if_false, List.tail_cons]
  by_cases hip : (w.takeWhile isDigitChar).isEmpty = true
  · simp [hip]
  · have hip' := eq_false_of_ne_true hip
    simp [hip']

theorem parseNumber_decToChars (m : Int) (e : Nat) (rest : List Char)
    (hrest : numTailOk rest) :
    parseNumber (decToChars m e ++ rest) = some ((m, e), rest) := by
  by_cases he : e = 0
  · subst he
    simp only [decToChars, if_pos rfl, if_true, intToChars]
    by_cases hm : m < 0
    · rw [if_pos hm, List.cons_append]
      have hhw : ¬ (natToDigits m.natAbs ++ rest).head? = some '-' := by
        obtain ⟨d, t, hD⟩ : ∃ d t, natToDigits m.natAbs = d :: t := by
          cases hD : natToDigits m.natAbs with
          | nil => exact absurd hD (natToDigits_ne_nil _)
          | cons d t => exact ⟨d, t, rfl⟩
        rw [hD]
        simp only [List.cons_append, List.head?_cons, Option.some.injEq]
        exact digit_ne_minus (natToDigits_digits _ d (by rw [hD]; simp))
      rw [parseNumber_neg _ hhw,
        parseNumber_noFrac _ _ (natToDigits_ne_nil _)
          (natToDigits_digits _) hrest]
      simp only [Option.map_some', digitsToNat_natToDigits]
      have : ((m.natAbs : Int)) = -m := by
        rw [Int.ofNat_natAbs_of_nonpos (le_of_lt hm)]
      rw [this]
      simp
    · rw [if_neg hm]
      rw [parseNumber_noFrac _ _ (natToDigits_ne_nil _)
        (natToDigits_digits _) hrest]
      rw [digitsToNat_natToDigits,
        Int.natAbs_of_nonneg (le_of_not_lt hm)]
  · have hpow : 0 < 10 ^ e := Nat.pos_pow_of_pos e (by omega)
    have hFlen : (padZeros (natToDigits (m.natAbs % 10 ^ e)) e).length
        = e :=
      padZeros_length _ _ (natToDigits_length_le _ _
        (Nat.mod_lt _ hpow) (by omega))
    have hFne : padZeros (natToDigits (m.natAbs % 10 ^ e)) e ≠ [] := by
      intro h
      rw [h] at hFlen
      simp at hFlen
      omega
    have hdigF : ∀ c ∈ padZeros (natToDigits (m.natAbs % 10 ^ e)) e,
        isDigitChar c = true :=
      padZeros_digits _ _ (natToDigits_digits _)
    have hval : digitsToNat (natToDigits (m.natAbs / 10 ^ e) ++
        padZeros (natToDigits (m.natAbs % 10 ^ e)) e) = m.natAbs := by
      rw [digitsToNat_append, hFlen, digitsToNat_padZeros,
        digitsToNat_natToDigits, digitsToNat_natToDigits,
        Nat.mul_comm (m.natAbs / 10 ^ e) (10 ^ e)]
      exact Nat.div_add_mod _ _
    simp only [decToChars, if_neg he]
    by_cases hm : m < 0
    · rw [if_pos hm]
      simp only [List.cons_append, List.nil_append, List.append_assoc,
        List.cons_append]
      have hhw : ¬ (natToDigits (m.natAbs / 10 ^ e) ++
          ('.' :: (padZeros (natToDigits (m.natAbs % 10 ^ e)) e ++
            rest))).head? = some '-' := by
        obtain ⟨d, t, hD⟩ : ∃ d t,
            natToDigits (m.natAbs / 10 ^ e) = d :: t := by
          cases hD : natToDigits (m.natAbs / 10 ^ e) with
          | nil => exact absurd hD (natToDigits_ne_nil _)
          | cons d t => exact ⟨d, t, rfl⟩
        rw [hD]
        simp only [List.cons_append, List.head?_cons, Option.some.injEq]
        exact digit_ne_minus (natToDigits_digits _ d (by rw [hD]; simp))
      rw [parseNumber_neg _ hhw,
        parseNumber_frac _ _ _ (natToDigits_ne_nil _) hFne
          (natToDigits_digits _) hdigF hrest]
      simp only [Option.map_some', hval, hFlen]
      have : ((m.natAbs : Int)) = -m := by
        rw [Int.ofNat_natAbs_of_nonpos (le_of_lt hm)]
      rw [this]
      simp
    · rw [if_neg hm]
      simp only [List.nil_append, List.append_assoc, List.cons_append]
      rw [parseNumber_frac _ _ _ (natToDigits_ne_nil _) hFne
        (natToDigits_digits _) hdigF hrest]
      rw [hval, hFlen, Int.natAbs_of_nonneg (le_of_not_lt hm)]

theorem intToChars_ne_nil (m : Int) : intToChars m ≠ [] := by
  unfold intToChars
  split
  · simp
  · exact natToDigits_ne_nil _

theorem decToChars_ne_nil (m : Int) (e : Nat) : decToChars m e ≠ [] := by
  unfold decToChars
  split
  · exact intToChars_ne_nil m
  · intro h
    rcases List.append_eq_nil.mp h with ⟨-, h2⟩
    exact List.noConfusion h2

theorem jsonEscapeChar_length_pos (c : Char) :
    1 ≤ (jsonEscapeChar c).length := by
  unfold jsonEscapeChar
  split_ifs <;> simp

theorem jsonEscape_length_ge (s : List Char) :
    s.length ≤ (jsonEscape s).length := by
  induction s with
  | nil => simp [jsonEscape]
  | cons c cs ih =>
      rw [jsonEscape_cons]
      simp only [List.length_append, List.length_cons]
      have := jsonEscapeChar_length_pos c
      omega

theorem printJson_length_pos (j : Json) (d : Nat) :
    1 ≤ (printJson j d).length := by
  cases j with
  | null => simp [printJson]
  | bool b => cases b <;> simp [printJson]
  | num m e =>
      simp only [printJson]
      have := decToChars_ne_nil m e
      cases h : decToChars m e with
      | nil => exact absurd h this
      | cons a t => simp [h]
  | str s => simp [printJson]
  | arr xs => cases xs <;> simp [printJson]
  | obj fs => cases fs <;> simp [printJson]

theorem numTailOk_nil : numTailOk [] := by
  intro c hc
  simp at hc

theorem numTailOk_cons (c : Char) (t : List Char)
    (h1 : isDigitChar c = false) (h2 : ¬c = '.') (h3 : ¬c = 'e')
    (h4 : ¬c = 'E') : numTailOk (c :: t) := by
  intro c' hc'
  simp only [List.head?_cons, Option.some.injEq] at hc'
  subst hc'
  exact ⟨h1, h2, h3, h4⟩

theorem numTailOk_comma (t : List Char) : numTailOk (',' :: t) :=
  numTailOk_cons _ _ (by decide) (by decide) (by decide) (by decide)

theorem numTailOk_newline (t : List Char) : numTailOk ('\n' :: t) :=
  numTailOk_cons _ _ (by decide) (by decide) (by decide) (by decide)

theorem decToChars_head (m : Int) (e : Nat) :
    ∃ c t, decToChars m e = c :: t ∧
      (c = '-' ∨ isDigitChar c = true) := by
  unfold decToChars
  split
  · unfold intToChars
    split
    · exact ⟨'-', _, rfl, Or.inl rfl⟩
    · cases h : natToDigits m.natAbs with
      | nil => exact absurd h (natToDigits_ne_nil _)
      | cons a t =>
          exact ⟨a, t, rfl,
            Or.inr (natToDigits_digits _ a (by rw [h]; simp))⟩
  · split
    · refine ⟨'-', natToDigits (m.natAbs / 10 ^ e) ++
        '.' :: padZeros (natToDigits (m.natAbs % 10 ^ e)) e, ?_, Or.inl rfl⟩
      simp
    · cases h : natToDigits (m.natAbs / 10 ^ e) with
      | nil => exact absurd h (natToDigits_ne_nil _)
      | cons a t =>
          refine ⟨a, t ++ '.' :: padZeros (natToDigits (m.natAbs % 10 ^ e)) e,
            ?_, Or.inr (natToDigits_digits _ a (by rw [h]; simp))⟩
          simp [h]

theorem numStart_dispatch (c : Char)
    (h : c = '-' ∨ isDigitChar c = true) :
    isJsonWs c = false ∧ ¬c = '{' ∧ ¬c = '[' ∧ ¬c = '"' ∧ ¬c = 't' ∧
      ¬c = 'f' ∧ ¬c = 'n' := by
  rcases h with h | h
  · subst h
    decide
  · have h32 : ¬c = ' ' := fun hh => absurd (hh ▸ h) (by decide)
    have h9 : ¬c = '\t' := fun hh => absurd (hh ▸ h) (by decide)
    have h10 : ¬c = '\n' := fun hh => absurd (hh ▸ h) (by decide)
    have h13 : ¬c = '\r' := fun hh => absurd (hh ▸ h) (by decide)
    refine ⟨by simp [isJsonWs, h32, h9, h10, h13], ?_, ?_, ?_, ?_, ?_, ?_⟩ <;>
      exact fun hh => absurd (hh ▸ h) (by decide)

theorem printJson_head_facts (j : Json) (d : Nat) :
    ∃ c t, printJson j d = c :: t ∧ isJsonWs c = false ∧
      ¬c = ']' ∧ ¬c = '}' := by
  cases j with
  | num m e =>
      obtain ⟨c, t, hct, hc⟩ := decToChars_head m e
      refine ⟨c, t, by simpa [printJson] using hct,
        (numStart_dispatch c hc).1, ?_, ?_⟩ <;>
        rcases hc with h | h
      · subst h; decide
      · exact fun hh => absurd (hh ▸ h) (by decide)
      · subst h; decide
      · exact fun hh => absurd (hh ▸ h) (by decide)
  | bool b => cases b <;> exact ⟨_, _, rfl, by decide, by decide, by decide⟩
  | arr xs => cases xs <;> exact ⟨_, _, rfl, by decide, by decide, by decide⟩
  | obj fs => cases fs <;> exact ⟨_, _, rfl, by decide, by decide, by decide⟩
  | null => exact ⟨_, _, rfl, by decide, by decide, by decide⟩
  | str s => exact ⟨_, _, rfl, by decide, by decide, by decide⟩

theorem skipWs_comma (s : List Char) : skipWs (',' :: s) = ',' :: s :=
  skipWs_cons_not _ _ (by decide)

theorem skipWs_colon (s : List Char) : skipWs (':' :: s) = ':' :: s :=
  skipWs_cons_not _ _ (by decide)

theorem skipWs_rbracket (s : List Char) : skipWs (']' :: s) = ']' :: s :=
  skipWs_cons_not _ _ (by decide)

theorem skipWs_rbrace (s : List Char) : skipWs ('}' :: s) = '}' :: s :=
  skipWs_cons_not _ _ (by decide)

theorem spaceList_ws : ∀ c ∈ [' '], isJsonWs c = true := by
  intro c hc
  rw [List.mem_singleton] at hc
  subst hc
  rfl

theorem parsePrint_ind (fuel : Nat) :
    (∀ j d rest, (printJson j d).length < fuel → numTailOk rest →
      parseJsonVal fuel (printJson j d ++ rest) = some (j, rest)) ∧
    (∀ pre, (∀ c ∈ pre, isJsonWs c = true) → ∀ x xs d dc rest,
      (printJson x d).length + (printJsonItems xs d).length + 1 < fuel →
      parseArrRest fuel (pre ++ (printJson x d ++ (printJsonItems xs d ++
        (nlIndent dc ++ (']' :: rest))))) = some (x :: xs, rest)) ∧
    (∀ (k : String) (v : Json) fs d dc rest,
      (printJsonField (k, v) d).length + (printJsonFields fs d).length + 1 <
        fuel →
      parseObjRest fuel (printJsonField (k, v) d ++ (printJsonFields fs d ++
        (nlIndent dc ++ ('}' :: rest)))) = some ((k, v) :: fs, rest)) := by
  induction fuel with
  | zero =>
      refine ⟨?_, ?_, ?_⟩
      · intro j d rest h _
        exact absurd h (by omega)
      · intro pre _ x xs d dc rest h
        exact absurd h (by omega)
      · intro k v fs d dc rest h
        exact absurd h (by omega)
  | succ f ih =>
      obtain ⟨ihV, ihA, ihO⟩ := ih
      refine ⟨?_, ?_, ?_⟩
      · intro j d rest hfuel hrest
        cases j with
        | null =>
            have hp : printJson Json.null d ++ rest =
                'n' :: 'u' :: 'l' :: 'l' :: rest := rfl
            rw [hp]
            have hsk : skipWs ('n' :: 'u' :: 'l' :: 'l' :: rest) =
                'n' :: 'u' :: 'l' :: 'l' :: rest :=
              skipWs_cons_not _ _ (by decide)
            simp [parseJsonVal, hsk]
        | bool b =>
            cases b with
            | true =>
                have hp : printJson (Json.bool true) d ++ rest =
                    't' :: 'r' :: 'u' :: 'e' :: rest := rfl
                rw [hp]
                have hsk : skipWs ('t' :: 'r' :: 'u' :: 'e' :: rest) =
                    't' :: 'r' :: 'u' :: 'e' :: rest :=
                  skipWs_cons_not _ _ (by decide)
                simp [parseJsonVal, hsk]
            | false =>
                have hp : printJson (Json.bool false) d ++ rest =
                    'f' :: 'a' :: 'l' :: 's' :: 'e' :: rest := rfl
                rw [hp]
                have hsk : skipWs ('f' :: 'a' :: 'l' :: 's' :: 'e' :: rest) =
                    'f' :: 'a' :: 'l' :: 's' :: 'e' :: rest :=
                  skipWs_cons_not _ _ (by decide)
                simp [parseJsonVal, hsk]
        | num m e =>
            obtain ⟨c, t, hct, hc⟩ := decToChars_head m e
            obtain ⟨hws, h1, h2, h3, h4, h5, h6⟩ := numStart_dispatch c hc
            have hp : printJson (Json.num m e) d = decToChars m e := rfl
            rw [hp, hct, List.cons_append]
            have hsk : skipWs (c :: (t ++ rest)) = c :: (t ++ rest) :=
              skipWs_cons_not _ _ hws
            simp only [parseJsonVal, hsk, h1, h2, h3, h4, h5, h6, if_false,
              ite_false]
            have hback : c :: (t ++ rest) = decToChars m e ++ rest := by
              rw [hct, List.cons_append]
            rw [hback, parseNumber_decToChars m e rest hrest]
            rfl
        | str s =>
            have hp : printJson (Json.str s) d ++ rest =
                '"' :: (jsonEscape s.data ++ '"' :: rest) := by
              simp [printJson]
            rw [hp]
            have hsk : skipWs ('"' :: (jsonEscape s.data ++ '"' :: rest)) =
                '"' :: (jsonEscape s.data ++ '"' :: rest) :=
              skipWs_cons_not _ _ (by decide)
            have hlen : s.data.length < f + 1 := by
              have hge := jsonEscape_length_ge s.data
              simp only [printJson, List.length_cons, List.length_append,
                List.length_singleton] at hfuel
              omega
            simp only [parseJsonVal, hsk,
              parseStringBody_escape rest s.data (f + 1) hlen]
            rfl
        | arr xs =>
            cases xs with
            | nil =>
                have hp : printJson (Json.arr []) d ++ rest =
                    '[' :: ']' :: rest := rfl
                rw [hp]
                have hsk : skipWs ('[' :: ']' :: rest) = '[' :: ']' :: rest :=
                  skipWs_cons_not _ _ (by decide)
                simp [parseJsonVal, hsk, skipWs_rbracket]
            | cons x xs =>
                have hp : printJson (Json.arr (x :: xs)) d ++ rest =
                    '[' :: (nlIndent (d + 1) ++ (printJson x (d + 1) ++
                      (printJsonItems xs (d + 1) ++
                        (nlIndent d ++ (']' :: rest))))) := by
                  simp [printJson, List.append_assoc]
                rw [hp]
                have hsk : skipWs ('[' :: (nlIndent (d + 1) ++
                    (printJson x (d + 1) ++ (printJsonItems xs (d + 1) ++
                      (nlIndent d ++ (']' :: rest)))))) =
                    '[' :: (nlIndent (d + 1) ++ (printJson x (d + 1) ++
                      (printJsonItems xs (d + 1) ++
                        (nlIndent d ++ (']' :: rest))))) :=
                  skipWs_cons_not _ _ (by decide)
                obtain ⟨c0, t0, hct, hws0, hne1, hne2⟩ :=
                  printJson_head_facts x (d + 1)
                have hskin : skipWs (nlIndent (d + 1) ++
                    (printJson x (d + 1) ++ (printJsonItems xs (d + 1) ++
                      (nlIndent d ++ (']' :: rest))))) =
                    printJson x (d + 1) ++ (printJsonItems xs (d + 1) ++
                      (nlIndent d ++ (']' :: rest))) := by
                  rw [skipWs_nlIndent, hct, List.cons_append,
                    skipWs_cons_not _ _ hws0, ← List.cons_append, ← hct]
                have hhd : ¬(printJson x (d + 1) ++
                    (printJsonItems xs (d + 1) ++
                      (nlIndent d ++ (']' :: rest)))).head? = some ']' := by
                  rw [hct, List.cons_append]
                  simp only [List.head?_cons, Option.some.injEq]
                  exact fun hh => hne1 hh
                have hfA : (printJson x (d + 1)).length +
                    (printJsonItems xs (d + 1)).length + 1 < f := by
                  simp only [printJson, List.length_cons, List.length_append,
                    nlIndent, List.length_replicate, List.length_singleton]
                    at hfuel
                  omega
                have hA := ihA [] (by intro c hc; simp at hc)
                  x xs (d + 1) d rest hfA
                rw [List.nil_append] at hA
                simp only [parseJsonVal, hsk, hskin, hhd, if_false, ite_false,
                  hA]
                rfl
        | obj fs =>
            cases fs with
            | nil =>
                have hp : printJson (Json.obj []) d ++ rest =
                    '{' :: '}' :: rest := rfl
                rw [hp]
                have hsk : skipWs ('{' :: '}' :: rest) = '{' :: '}' :: rest :=
                  skipWs_cons_not _ _ (by decide)
                simp [parseJsonVal, hsk, skipWs_rbrace]
            | cons g gs =>
                obtain ⟨k, v⟩ := g
                have hp : printJson (Json.obj ((k, v) :: gs)) d ++ rest =
                    '{' :: (nlIndent (d + 1) ++
                      (printJsonField (k, v) (d + 1) ++
                        (printJsonFields gs (d + 1) ++
                          (nlIndent d ++ ('}' :: rest))))) := by
                  simp [printJson, List.append_assoc]
                rw [hp]
                have hsk : skipWs ('{' :: (nlIndent (d + 1) ++
                    (printJsonField (k, v) (d + 1) ++
                      (printJsonFields gs (d + 1) ++
                        (nlIndent d ++ ('}' :: rest)))))) =
                    '{' :: (nlIndent (d + 1) ++
                      (printJsonField (k, v) (d + 1) ++
                        (printJsonFields gs (d + 1) ++
                          (nlIndent d ++ ('}' :: rest))))) :=
                  skipWs_cons_not _ _ (by decide)
                have hfs : printJsonField (k, v) (d + 1) =
                    '"' :: (jsonEscape k.data ++ '"' :: ':' :: ' ' ::
                      printJson v (d + 1)) := rfl
                have hskin : skipWs (nlIndent (d + 1) ++
                    (printJsonField (k, v) (d + 1) ++
                      (printJsonFields gs (d + 1) ++
                        (nlIndent d ++ ('}' :: rest))))) =
                    printJsonField (k, v) (d + 1) ++
                      (printJsonFields gs (d + 1) ++
                        (nlIndent d ++ ('}' :: rest))) := by
                  rw [skipWs_nlIndent, hfs, List.cons_append,
                    skipWs_cons_not _ _ (by decide), ← List.cons_append,
                    ← hfs]
                have hhd : ¬(printJsonField (k, v) (d + 1) ++
                    (printJsonFields gs (d + 1) ++
                      (nlIndent d ++ ('}' :: rest)))).head? = some '}' := by
                  rw [hfs, List.cons_append]
                  simp only [List.head?_cons, Option.some.injEq]
                  exact fun hh => absurd hh (by decide)
                have hfO : (printJsonField (k, v) (d + 1)).length +
                    (printJsonFields gs (d + 1)).length + 1 < f := by
                  simp only [printJson, List.length_cons, List.length_append,
                    nlIndent, List.length_replicate, List.length_singleton]
                    at hfuel
                  omega
                have hO := ihO k v gs (d + 1) d rest hfO
                simp only [parseJsonVal, hsk, hskin, hhd, if_false,
                  ite_false, hO]
                rfl
      · intro pre hpre x xs d dc rest hfuel
        have hT : numTailOk (printJsonItems xs d ++
            (nlIndent dc ++ (']' :: rest))) := by
          cases xs with
          | nil =>
              simp only [printJsonItems, List.nil_append, nlIndent,
                List.cons_append]
              exact numTailOk_newline _
          | cons y ys =>
              simp only [printJsonItems, List.cons_append]
              exact numTailOk_comma _
        have hx : parseJsonVal f (pre ++ (printJson x d ++
            (printJsonItems xs d ++ (nlIndent dc ++ (']' :: rest))))) =
            some (x, printJsonItems xs d ++
              (nlIndent dc ++ (']' :: rest))) := by
          rw [parseJsonVal_ws f pre _ hpre]
          exact ihV x d _ (by omega) hT
        cases xs with
        | nil =>
            simp only [printJsonItems, List.nil_append] at hx ⊢
            simp only [parseArrRest, hx, skipWs_nlIndent, skipWs_rbracket]
        | cons y ys =>
            have hfy : (printJson y d).length +
                (printJsonItems ys d).length + 1 < f := by
              simp only [printJsonItems, List.length_cons,
                List.length_append, nlIndent, List.length_replicate] at hfuel
              omega
            have hrec := ihA (nlIndent d) (nlIndent_ws d) y ys d dc rest hfy
            simp only [printJsonItems, List.cons_append, List.append_assoc]
              at hx ⊢
            simp only [parseArrRest, hx, skipWs_comma, hrec]
            rfl
      · intro k v fs d dc rest hfuel
        have hfield : printJsonField (k, v) d ++ (printJsonFields fs d ++
            (nlIndent dc ++ ('}' :: rest))) =
            '"' :: (jsonEscape k.data ++ '"' :: ':' :: ' ' ::
              (printJson v d ++ (printJsonFields fs d ++
                (nlIndent dc ++ ('}' :: rest))))) := by
          simp [printJsonField, List.append_assoc]
        have hlen : k.data.length < f + 1 := by
          have hge := jsonEscape_length_ge k.data
          simp only [printJsonField, List.length_cons, List.length_append]
            at hfuel
          omega
        have hkey := parseStringBody_escape
          (':' :: ' ' :: (printJson v d ++ (printJsonFields fs d ++
            (nlIndent dc ++ ('}' :: rest))))) k.data (f + 1) hlen
        have hTv : numTailOk (printJsonFields fs d ++
            (nlIndent dc ++ ('}' :: rest))) := by
          cases fs with
          | nil =>
              simp only [printJsonFields, List.nil_append, nlIndent,
                List.cons_append]
              exact numTailOk_newline _
          | cons g gs =>
              simp only [printJsonFields, List.cons_append]
              exact numTailOk_comma _
        have hv : parseJsonVal f (' ' :: (printJson v d ++
            (printJsonFields fs d ++ (nlIndent dc ++ ('}' :: rest))))) =
            some (v, printJsonFields fs d ++
              (nlIndent dc ++ ('}' :: rest))) := by
          have hws := parseJsonVal_ws f [' '] (printJson v d ++
            (printJsonFields fs d ++ (nlIndent dc ++ ('}' :: rest))))
            spaceList_ws
          rw [List.singleton_append] at hws
          rw [hws]
          exact ihV v d _ (by
            simp only [printJsonField, List.length_cons, List.length_append]
              at hfuel
            omega) hTv
        cases fs with
        | nil =>
            simp only [printJsonFields, List.nil_append] at hfield hkey hv ⊢
            rw [hfield]
            simp only [parseObjRest, hkey, skipWs_colon, hv, skipWs_nlIndent,
              skipWs_rbrace]
        | cons g gs =>
            obtain ⟨k2, v2⟩ := g
            have hff : (printJsonField (k2, v2) d).length +
                (printJsonFields gs d).length + 1 < f := by
              simp only [printJsonField, printJsonFields, List.length_cons,
                List.length_append, nlIndent, List.length_replicate]
                at hfuel ⊢
              omega
            have hrec := ihO k2 v2 gs d dc rest hff
            have hfs2 : printJsonField (k2, v2) d =
                '"' :: (jsonEscape k2.data ++ '"' :: ':' :: ' ' ::
                  printJson v2 d) := rfl
            have hskf : skipWs (printJsonField (k2, v2) d ++
                (printJsonFields gs d ++ (nlIndent dc ++ ('}' :: rest)))) =
                printJsonField (k2, v2) d ++
                  (printJsonFields gs d ++
                    (nlIndent dc ++ ('}' :: rest))) := by
              rw [hfs2, List.cons_append, skipWs_cons_not _ _ (by decide),
                ← List.cons_append, ← hfs2]
            simp only [printJsonFields, List.cons_append, List.append_assoc]
              at hfield hkey hv ⊢
            rw [hfield]
            simp only [parseObjRest, hkey, skipWs_colon, hv, skipWs_comma,
              skipWs_nlIndent, hskf, hrec]
            rfl

theorem parseJsonVal_printJson (j : Json) (d : Nat) (rest : List Char)
    (fuel : Nat) (hfuel : (printJson j d).length < fuel)
    (hrest : numTailOk rest) :
    parseJsonVal fuel (printJson j d ++ rest) = some (j, rest) :=
  (parsePrint_ind fuel).1 j d rest hfuel hrest

theorem parseJsonDoc_printJson (j : Json) :
    parseJsonDoc (printJson j 0) = some j := by
  have h := parseJsonVal_printJson j 0 [] ((printJson j 0).length + 1)
    (by omega) numTailOk_nil
  rw [List.append_nil] at h
  simp [parseJsonDoc, h, skipWs]

theorem decodeStrList_map (l : List String) :
    decodeStrList (l.map Json.str) = some l := by
  induction l with
  | nil => rfl
  | cons s t ih => simp [decodeStrList, ih]

theorem decodeEnvList_map (kvs : List (String × String)) :
    decodeEnvList (kvs.map (fun kv => (kv.1, Json.str kv.2))) = some kvs := by
  induction kvs with
  | nil => rfl
  | cons kv t ih =>
      obtain ⟨k, v⟩ := kv
      simp [decodeEnvList, ih]

theorem portOfJson_portToJson (pm : PortMapping) :
    portOfJson (portToJson pm) = some pm := by
  simp [portToJson, portOfJson, assignPortFields, assignPortField]

theorem decodePortList_map (l : List PortMapping) :
    decodePortList (l.map portToJson) = some l := by
  induction l with
  | nil => rfl
  | cons pm t ih => simp [decodePortList, portOfJson_portToJson, ih]

theorem assignProfileFields_append (p : ProfileRequest)
    (a b : List (String × Json)) :
    assignProfileFields p (a ++ b) =
      (assignProfileFields p a).bind (fun q => assignProfileFields q b) := by
  induction a generalizing p with
  | nil => rfl
  | cons kv t ih =>
      obtain ⟨k, v⟩ := kv
      simp only [List.cons_append, assignProfileFields]
      cases assignProfileField p k v with
      | none => rfl
      | some p' => exact ih p'

theorem resourcesOfJson_roundtrip (r : Resources) :
    resourcesOfJson (Json.obj [("limits", Json.obj
      [("memory", Json.str r.limits.memory),
       ("cpus", Json.num r.limits.cpus.mant r.limits.cpus.frac)])]) =
      some r := by
  have h1 : assignLimitsField ⟨"", ⟨0, 0⟩⟩ "memory"
      (Json.str r.limits.memory) = some ⟨r.limits.memory, ⟨0, 0⟩⟩ := rfl
  have h2 : assignLimitsField ⟨r.limits.memory, ⟨0, 0⟩⟩ "cpus"
      (Json.num r.limits.cpus.mant r.limits.cpus.frac) =
      some ⟨r.limits.memory, ⟨r.limits.cpus.mant, r.limits.cpus.frac⟩⟩ := rfl
  simp [resourcesOfJson, assignResourcesFields, limitsOfJson,
    assignLimitsFields, h1, h2]

theorem apf_id (q : ProfileRequest) (s : String) :
    assignProfileField q "id" (Json.str s) = some { q with id := s } := rfl

theorem apf_version (q : ProfileRequest) (s : String) :
    assignProfileField q "version" (Json.str s) =
      some { q with version := s } := rfl

theorem apf_ports_null (q : ProfileRequest) :
    assignProfileField q "ports" Json.null = some q := rfl

theorem apf_ports_arr (q : ProfileRequest) (l : List PortMapping) :
    assignProfileField q "ports" (Json.arr (l.map portToJson)) =
      some { q with ports := some l } := by
  have h : assignProfileField q "ports" (Json.arr (l.map portToJson)) =
      (decodePortList (l.map portToJson)).map (fun l =>
        { q with ports := some l }) := rfl
  rw [h, decodePortList_map]
  rfl

theorem apf_env_null (q : ProfileRequest) :
    assignProfileField q "env" Json.null = some q := rfl

theorem apf_env_obj (q : ProfileRequest) (kvs : List (String × String)) :
    assignProfileField q "env"
      (Json.obj (kvs.map (fun kv => (kv.1, Json.str kv.2)))) =
      some { q with env := some kvs } := by
  have h : assignProfileField q "env"
      (Json.obj (kvs.map (fun kv => (kv.1, Json.str kv.2)))) =
      (decodeEnvList (kvs.map (fun kv => (kv.1, Json.str kv.2)))).map
        (fun l => { q with env := some l }) := rfl
  rw [h, decodeEnvList_map]
  rfl

theorem apf_resources (q : ProfileRequest) (r : Resources) :
    assignProfileField q "resources" (Json.obj [("limits", Json.obj
      [("memory", Json.str r.limits.memory),
       ("cpus", Json.num r.limits.cpus.mant r.limits.cpus.frac)])]) =
      some { q with resources := r } := by
  have h : assignProfileField q "resources" (Json.obj [("limits", Json.obj
      [("memory", Json.str r.limits.memory),
       ("cpus", Json.num r.limits.cpus.mant r.limits.cpus.frac)])]) =
      match resourcesOfJson (Json.obj [("limits", Json.obj
        [("memory", Json.str r.limits.memory),
         ("cpus", Json.num r.limits.cpus.mant
            r.limits.cpus.frac)])]) with
      | none => none
      | some r' => some { q with resources := r' } := rfl
  rw [h, resourcesOfJson_roundtrip]

theorem apf_enabled (q : ProfileRequest) (b : Bool) :
    assignProfileField q "enabled" (Json.bool b) =
      some { q with enabled := b } := rfl

theorem apf_runtimeStatus (q : ProfileRequest) (s : String) :
    assignProfileField q "runtimeStatus" (Json.str s) =
      some { q with runtimeStatus := s } := rfl

theorem apf_startingUntil (q : ProfileRequest) (s : String) :
    assignProfileField q "startingUntil" (Json.str s) =
      some { q with startingUntil := s } := rfl

theorem apf_lastAction (q : ProfileRequest) (s : String) :
    assignProfileField q "lastAction" (Json.str s) =
      some { q with lastAction := s } := rfl

theorem apf_lastActionStatus (q : ProfileRequest) (s : String) :
    assignProfileField q "lastActionStatus" (Json.str s) =
      some { q with lastActionStatus := s } := rfl

theorem apf_lastActionResult (q : ProfileRequest) (s : String) :
    assignProfileField q "lastActionResult" (Json.str s) =
      some { q with lastActionResult := s } := rfl

theorem apf_lastActionAt (q : ProfileRequest) (s : String) :
    assignProfileField q "lastActionAt" (Json.str s) =
      some { q with lastActionAt := s } := rfl

theorem apf_lastRequestedVersion (q : ProfileRequest) (s : String) :
    assignProfileField q "lastRequestedVersion" (Json.str s) =
      some { q with lastRequestedVersion := s } := rfl

theorem apf_actionLog (q : ProfileRequest) (l : List String) :
    assignProfileField q "actionLog" (Json.arr (l.map Json.str)) =
      some { q with actionLog := some l } := by
  have h : assignProfileField q "actionLog" (Json.arr (l.map Json.str)) =
      (decodeStrList (l.map Json.str)).map (fun l =>
        { q with actionLog := some l }) := rfl
  rw [h, decodeStrList_map]
  rfl

theorem seg_runtimeStatus (q : ProfileRequest) (s : String)
    (hq : q.runtimeStatus = "") :
    assignProfileFields q
      (if s = "" then [] else [("runtimeStatus", Json.str s)]) =
      some { q with runtimeStatus := s } := by
  by_cases h : s = ""
  · subst h
    rw [if_pos rfl, ← hq]
    rfl
  · rw [if_neg h]
    simp [assignProfileFields, apf_runtimeStatus]

theorem seg_startingUntil (q : ProfileRequest) (s : String)
    (hq : q.startingUntil = "") :
    assignProfileFields q
      (if s = "" then [] else [("startingUntil", Json.str s)]) =
      some { q with startingUntil := s } := by
  by_cases h : s = ""
  · subst h
    rw [if_pos rfl, ← hq]
    rfl
  · rw [if_neg h]
    simp [assignProfileFields, apf_startingUntil]

theorem seg_lastAction (q : ProfileRequest) (s : String)
    (hq : q.lastAction = "") :
    assignProfileFields q
      (if s = "" then [] else [("lastAction", Json.str s)]) =
      some { q with lastAction := s } := by
  by_cases h : s = ""
  · subst h
    rw [if_pos rfl, ← hq]
    rfl
  · rw [if_neg h]
    simp [assignProfileFields, apf_lastAction]

theorem seg_lastActionStatus (q : ProfileRequest) (s : String)
    (hq : q.lastActionStatus = "") :
    assignProfileFields q
      (if s = "" then [] else [("lastActionStatus", Json.str s)]) =
      some { q with lastActionStatus := s } := by
  by_cases h : s = ""
  · subst h
    rw [if_pos rfl, ← hq]
    rfl
  · rw [if_neg h]
    simp [assignProfileFields, apf_lastActionStatus]

theorem seg_lastActionResult (q : ProfileRequest) (s : String)
    (hq : q.lastActionResult = "") :
    assignProfileFields q
      (if s = "" then [] else [("lastActionResult", Json.str s)]) =
      some { q with lastActionResult := s } := by
  by_cases h : s = ""
  · subst h
    rw [if_pos rfl, ← hq]
    rfl
  · rw [if_neg h]
    simp [assignProfileFields, apf_lastActionResult]

theorem seg_lastActionAt (q : ProfileRequest) (s : String)
    (hq : q.lastActionAt = "") :
    assignProfileFields q
      (if s = "" then [] else [("lastActionAt", Json.str s)]) =
      some { q with lastActionAt := s } := by
  by_cases h : s = ""
  · subst h
    rw [if_pos rfl, ← hq]
    rfl
  · rw [if_neg h]
    simp [assignProfileFields, apf_lastActionAt]

theorem seg_lastRequestedVersion (q : ProfileRequest) (s : String)
    (hq : q.lastRequestedVersion = "") :
    assignProfileFields q
      (if s = "" then [] else [("lastRequestedVersion", Json.str s)]) =
      some { q with lastRequestedVersion := s } := by
  by_cases h : s = ""
  · subst h
    rw [if_pos rfl, ← hq]
    rfl
  · rw [if_neg h]
    simp [assignProfileFields, apf_lastRequestedVersion]

theorem profileOfJson_profileToJson (p : ProfileRequest)
    (hrun : p.running = false) (hlog : p.actionLog ≠ some []) :
    profileOfJson (profileToJson p) = some p := by
  obtain ⟨pid, pver, pports, penv, pres, pen, prun, prs, psu, pla, plas,
    plar, plaa, plrv, plog⟩ := p
  replace hrun : prun = false := hrun
  replace hlog : plog ≠ some [] := hlog
  subst hrun
  cases plog with
  | some llog =>
      cases llog with
      | nil => exact absurd rfl hlog
      | cons s t =>
          cases pports <;> cases penv <;>
            simp only [profileToJson, profileOfJson, emptyGoProfile,
              List.append_eq, List.nil_append, List.cons_append,
              assignProfileFields_append, assignProfileFields,
              Option.some_bind, apf_id, apf_version, apf_ports_null,
              apf_ports_arr, apf_env_null, apf_env_obj, apf_resources,
              apf_enabled, seg_runtimeStatus, seg_startingUntil,
              seg_lastAction, seg_lastActionStatus, seg_lastActionResult,
              seg_lastActionAt, seg_lastRequestedVersion, apf_actionLog] <;>
            rfl
  | none =>
      cases pports <;> cases penv <;>
        simp only [profileToJson, profileOfJson, emptyGoProfile,
          List.append_eq, List.nil_append, List.cons_append,
          assignProfileFields_append, assignProfileFields,
          Option.some_bind, apf_id, apf_version, apf_ports_null,
          apf_ports_arr, apf_env_null, apf_env_obj, apf_resources,
          apf_enabled, seg_runtimeStatus, seg_startingUntil,
          seg_lastAction, seg_lastActionStatus, seg_lastActionResult,
          seg_lastActionAt, seg_lastRequestedVersion] <;>
        rfl

theorem decodeProfileList_map (l : List ProfileRequest)
    (h : ∀ p ∈ l, p.running = false ∧ p.actionLog ≠ some []) :
    decodeProfileList (l.map profileToJson) = some l := by
  induction l with
  | nil => rfl
  | cons p t ih =>
      have hp := h p (by simp)
      have hprof : profileOfJson (profileToJson p) = some p :=
        profileOfJson_profileToJson p hp.1 hp.2
      simp only [List.map_cons, decodeProfileList, hprof,
        ih (fun q hq => h q (by simp [hq]))]
      rfl

theorem storeOfJson_storeToJson (store : ProfileStore)
    (l : List ProfileRequest) (hl : store.profiles = some l)
    (h : ∀ p ∈ l, p.running = false ∧ p.actionLog ≠ some []) :
    storeOfJson (storeToJson store) = some store := by
  obtain ⟨profs⟩ := store
  simp only at hl
  subst hl
  simp only [storeToJson, storeOfJson, assignStoreFields,
    decodeProfileList_map l h]
  rfl

theorem trimSpaceChars_cons_ne_nil (c : Char) (t : List Char)
    (h : isGoSpace c = false) : trimSpaceChars (c :: t) ≠ [] := by
  intro hnil
  unfold trimSpaceChars at hnil
  rw [List.dropWhile_cons_of_neg (by simp [h])] at hnil
  have h2 : ((c :: t).reverse.dropWhile isGoSpace) = [] := by
    cases hd : (c :: t).reverse.dropWhile isGoSpace with
    | nil => rfl
    | cons a b =>
        rw [hd] at hnil
        simp at hnil
  rw [List.dropWhile_eq_nil_iff] at h2
  have := h2 c (by simp)
  rw [h] at this
  exact Bool.noConfusion this

theorem loadStore_printed (l : List ProfileRequest)
    (h : ∀ p ∈ l, p.running = false ∧ p.actionLog ≠ some []) :
    loadProfileStore (some (writeProfileStoreAtomicContent ⟨some l⟩)) =
      Except.ok ⟨some l⟩ := by
  have hso : storeOfJson (storeToJson ⟨some l⟩) = some ⟨some l⟩ :=
    storeOfJson_storeToJson ⟨some l⟩ l rfl h
  have hdoc : parseJsonDoc (printJson (storeToJson ⟨some l⟩) 0) =
      some (storeToJson ⟨some l⟩) := parseJsonDoc_printJson _
  have hpr : ∃ t, printJson (storeToJson (⟨some l⟩ : ProfileStore)) 0 =
      '{' :: t := ⟨_, rfl⟩
  obtain ⟨tl, hpr⟩ := hpr
  have hne : ¬trimSpaceChars
      (printJson (storeToJson (⟨some l⟩ : ProfileStore)) 0) = [] := by
    rw [hpr]
    exact trimSpaceChars_cons_ne_nil '{' tl (by decide)
  simp only [loadProfileStore, writeProfileStoreAtomicContent]
  rw [if_neg hne]
  simp only [hdoc, hso]

/-- C7 (amended): writing a store with `writeProfileStoreAtomic` and
loading the same bytes with `loadProfileStore` succeeds and returns the
identical store, provided the profile list is present (non-`nil`) and
every profile has `running = false` (the field carries `json:"-"` and is
not serialised) and `actionLog ≠ some []` (`omitempty` drops an empty
log, which loads back as absent). -/
theorem writeLoad_roundTrip (store : ProfileStore)
    (l : List ProfileRequest) (hl : store.profiles = some l)
    (h : ∀ p ∈ l, p.running = false ∧ p.actionLog ≠ some []) :
    loadProfileStore (some (writeProfileStoreAtomicContent store)) =
      Except.ok store := by
  obtain ⟨profs⟩ := store
  replace hl : profs = some l := hl
  subst hl
  exact loadStore_printed l h

/-- C7 counterexample: a store whose profile has `running = true` does
not round-trip — `Running` carries `json:"-"`, so the loaded profile has
`running = false`. -/
theorem writeLoad_running_not_roundtrip :
    loadProfileStore (some (writeProfileStoreAtomicContent c7BadStore)) =
      Except.ok ⟨some [{ c7BadProfile with running := false }]⟩ ∧
    c7BadStore ≠ ⟨some [{ c7BadProfile with running := false }]⟩ := by
  constructor
  · have hbytes : writeProfileStoreAtomicContent c7BadStore =
        writeProfileStoreAtomicContent
          ⟨some [{ c7BadProfile with running := false }]⟩ := rfl
    rw [hbytes]
    exact loadStore_printed [{ c7BadProfile with running := false }]
      (by decide)
  · decide

/-- C7 witness: the round-trip theorem applied to a concrete store. -/
theorem writeLoad_roundTrip_witness :
    (c7GoodStore.profiles = some [c7GoodProfile] ∧
      ∀ p ∈ [c7GoodProfile], p.running = false ∧ p.actionLog ≠ some []) ∧
    loadProfileStore (some (writeProfileStoreAtomicContent c7GoodStore)) =
      Except.ok c7GoodStore :=
  ⟨⟨rfl, by decide⟩,
   writeLoad_roundTrip c7GoodStore [c7GoodProfile] rfl (by decide)⟩

/-- C6: `loadProfileStore` returns an empty store and no error when the
file is missing or contains only whitespace; a present but invalid JSON
document is a hard error mentioning corruption; and a successful load
never returns a `nil` profile list. -/
theorem loadProfileStore_behavior :
    loadProfileStore none = Except.ok ⟨some []⟩ ∧
    (∀ b, trimSpaceChars b = [] →
      loadProfileStore (some b) = Except.ok ⟨some []⟩) ∧
    (∀ b, trimSpaceChars b ≠ [] → parseJsonDoc b = none →
      loadProfileStore (some b) =
        Except.error ("profiles.json is corrupted: " ++
          "invalid JSON document")) ∧
    (∀ content st, loadProfileStore content = Except.ok st →
      ∃ l, st.profiles = some l) := by
  refine ⟨rfl, ?_, ?_, ?_⟩
  · intro b hb
    simp [loadProfileStore, hb]
  · intro b hb hp
    simp [loadProfileStore, hb, hp]
  · intro content st h
    cases content with
    | none =>
        replace h : Except.ok (⟨some []⟩ : ProfileStore) = Except.ok st := h
        injection h with h'
        subst h'
        exact ⟨[], rfl⟩
    | some b =>
        simp only [loadProfileStore] at h
        by_cases hb : trimSpaceChars b = []
        · rw [if_pos hb] at h
          injection h with h'
          subst h'
          exact ⟨[], rfl⟩
        · rw [if_neg hb] at h
          cases hparse : parseJsonDoc b with
          | none =>
              simp only [hparse] at h
              exact Except.noConfusion h
          | some v =>
              simp only [hparse] at h
              cases hdec : storeOfJson v with
              | none =>
                  simp only [hdec] at h
                  exact Except.noConfusion h
              | some store =>
                  simp only [hdec] at h
                  cases hprofs : store.profiles with
                  | none =>
                      simp only [hprofs] at h
                      injection h with h'
                      subst h'
                      exact ⟨[], rfl⟩
                  | some l =>
                      simp only [hprofs] at h
                      injection h with h'
                      subst h'
                      exact ⟨l, rfl⟩

/-- C6 witness: the behavior theorem applied to a whitespace-only file
and to a file that is not JSON. -/
theorem loadProfileStore_behavior_witness :
    loadProfileStore (some [' ', '\n']) = Except.ok ⟨some []⟩ ∧
    loadProfileStore (some ['x']) =
      Except.error ("profiles.json is corrupted: " ++
        "invalid JSON document") :=
  ⟨loadProfileStore_behavior.2.1 [' ', '\n'] (by decide),
   loadProfileStore_behavior.2.2.1 ['x'] (by decide) rfl⟩
